import Mathlib

/-!
# Verification of `getRepo` (endpoint/main.go)

The repository is one HTTP handler, `getRepo`, glued onto Go's `net/http` and
`encoding/json`.  The handler is embedded as a pure function from the path
parameters and a `World` (the outcome of the outbound call and the clock) to
the list of library calls it issues, in program order.  What those calls mean
for the caller (`net/http`'s response writer) and for the bytes exchanged
(`encoding/json`) is modelled next to it, following the documented behaviour of
the Go standard library.

Modelling conventions
* Go strings are `String`; texts are assumed to be valid UTF-8.  Inside
  `net/url` a string is the list of its bytes.
* Go `int` is 64 bits wide (as on amd64 and arm64).
* The upstream body is the complete text readable from `resp.Body`.
-/

deriving instance DecidableEq for Except

namespace Endpoint

/-! ## Data model (main.go, lines 13-23) -/

/-- The constant `baseURL`. -/
def baseURL : String := "https://api.github.com"

/-- The anonymous struct type of the field `Owner` of `Repository`. -/
structure RepositoryOwner where
  Login : String
  deriving DecidableEq, Repr

/-- The struct `Repository`. -/
structure Repository where
  ID : Int
  Name : String
  Owner : RepositoryOwner
  deriving DecidableEq, Repr

/-- The zero value of `Repository`, the state of `var repoObj Repository`. -/
def Repository.zero : Repository := ⟨0, "", ⟨""⟩⟩

/-! ## JSON values and the decoder of `encoding/json` -/

/-- A JSON value as read by the scanner of `encoding/json`.  A number keeps the
text of its literal, which is what the decoder hands to `strconv`. -/
inductive JSON where
  | null
  | bool (b : Bool)
  | number (lit : List Char)
  | string (s : List Char)
  | array (items : List JSON)
  | object (fields : List (List Char × JSON))

instance : Inhabited JSON := ⟨JSON.null⟩

/-- The errors `(*json.Decoder).Decode` can return. -/
inductive DecodeError where
  | eof
  | unexpectedEOF
  | malformed
  | typeMismatch
  deriving DecidableEq, Repr

/-- The function `isSpace` of the scanner. -/
def isSpace (c : Char) : Bool :=
  c == ' ' || c == '\t' || c == '\r' || c == '\n'

/-- Drop leading JSON white space. -/
def skipSpace : List Char → List Char
  | [] => []
  | c :: cs => if isSpace c then skipSpace cs else c :: cs

/-- Decimal digit test. -/
def isDigit (c : Char) : Bool := '0' ≤ c && c ≤ '9'

/-- ASCII letter test. -/
def isLetter (c : Char) : Bool := ('a' ≤ c && c ≤ 'z') || ('A' ≤ c && c ≤ 'Z')

/-- Value of a hexadecimal digit. -/
def hexVal (c : Char) : Option Nat :=
  if '0' ≤ c && c ≤ '9' then some (c.toNat - '0'.toNat)
  else if 'a' ≤ c && c ≤ 'f' then some (c.toNat - 'a'.toNat + 10)
  else if 'A' ≤ c && c ≤ 'F' then some (c.toNat - 'A'.toNat + 10)
  else none

/-- Split off the longest run of decimal digits. -/
def takeDigits : List Char → List Char × List Char
  | [] => ([], [])
  | c :: cs =>
    if isDigit c then
      let (ds, rest) := takeDigits cs
      (c :: ds, rest)
    else ([], c :: cs)

/-- The four hexadecimal digits of a `\u` escape. -/
def hex4 : List Char → Option (Nat × List Char)
  | a :: b :: c :: d :: rest =>
    match hexVal a, hexVal b, hexVal c, hexVal d with
    | some x, some y, some z, some w => some (((x * 16 + y) * 16 + z) * 16 + w, rest)
    | _, _, _, _ => none
  | _ => none

/-- The rune of one `\u` escape whose code unit is `u`, given the input that
follows it: a surrogate pair is combined, a lone surrogate becomes U+FFFD
(function `unquoteBytes`). -/
def escapedRune (u : Nat) (rest : List Char) : Char × List Char :=
  if 0xD800 ≤ u && u < 0xDC00 then
    match rest with
    | '\\' :: 'u' :: rest2 =>
      match hex4 rest2 with
      | some (v, rest3) =>
        if 0xDC00 ≤ v && v < 0xE000 then
          (Char.ofNat (0x10000 + (u - 0xD800) * 0x400 + (v - 0xDC00)), rest3)
        else (Char.ofNat 0xFFFD, rest)
      | none => (Char.ofNat 0xFFFD, rest)
    | _ => (Char.ofNat 0xFFFD, rest)
  else if 0xDC00 ≤ u && u < 0xE000 then (Char.ofNat 0xFFFD, rest)
  else (Char.ofNat u, rest)

/-- Read a string literal after its opening quote; the result is the unquoted
text and the input after the closing quote. -/
def parseString : Nat → List Char → Except DecodeError (List Char × List Char)
  | 0, _ => .error .malformed
  | _ + 1, [] => .error .unexpectedEOF
  | fuel + 1, c :: cs =>
    if c == '"' then .ok ([], cs)
    else if c == '\\' then
      match cs with
      | [] => .error .unexpectedEOF
      | e :: rest =>
        let simple (r : Char) : Except DecodeError (List Char × List Char) :=
          match parseString fuel rest with
          | .ok (s, out) => .ok (r :: s, out)
          | .error err => .error err
        if e == '"' then simple '"'
        else if e == '\\' then simple '\\'
        else if e == '/' then simple '/'
        else if e == 'b' then simple (Char.ofNat 8)
        else if e == 'f' then simple (Char.ofNat 12)
        else if e == 'n' then simple '\n'
        else if e == 'r' then simple '\r'
        else if e == 't' then simple '\t'
        else if e == 'u' then
          match hex4 rest with
          | none => if rest.length < 4 ∧ rest.all (fun x => (hexVal x).isSome)
                    then .error .unexpectedEOF else .error .malformed
          | some (u, rest2) =>
            let (r, rest3) := escapedRune u rest2
            match parseString fuel rest3 with
            | .ok (s, out) => .ok (r :: s, out)
            | .error err => .error err
        else .error .malformed
    else if c.toNat < 0x20 then .error .malformed
    else
      match parseString fuel cs with
      | .ok (s, out) => .ok (c :: s, out)
      | .error err => .error err

/-- Read a number literal (the first character `c` is `-` or a digit). -/
def parseNumber (cs : List Char) : Except DecodeError (List Char × List Char) :=
  let (sign, cs1) := match cs with
    | '-' :: rest => (['-'], rest)
    | _ => ([], cs)
  -- integer part: `0`, or a non-zero digit followed by digits
  let intPart : Except DecodeError (List Char × List Char) := match cs1 with
    | [] => .error .unexpectedEOF
    | '0' :: rest => .ok (['0'], rest)
    | c :: rest =>
      if isDigit c then
        let (ds, rest2) := takeDigits rest
        .ok (c :: ds, rest2)
      else .error .malformed
  match intPart with
  | .error e => .error e
  | .ok (ip, cs2) =>
    let fracPart : Except DecodeError (List Char × List Char) := match cs2 with
      | '.' :: rest =>
        match takeDigits rest with
        | ([], []) => .error .unexpectedEOF
        | ([], _) => .error .malformed
        | (ds, rest2) => .ok ('.' :: ds, rest2)
      | _ => .ok ([], cs2)
    match fracPart with
    | .error e => .error e
    | .ok (fp, cs3) =>
      let expPart : Except DecodeError (List Char × List Char) :=
        let digitsAfter (mark : List Char) (rest : List Char) :
            Except DecodeError (List Char × List Char) :=
          match takeDigits rest with
          | ([], []) => .error .unexpectedEOF
          | ([], _) => .error .malformed
          | (ds, rest2) => .ok (mark ++ ds, rest2)
        match cs3 with
        | 'e' :: '+' :: rest => digitsAfter ['e', '+'] rest
        | 'e' :: '-' :: rest => digitsAfter ['e', '-'] rest
        | 'e' :: rest => digitsAfter ['e'] rest
        | 'E' :: '+' :: rest => digitsAfter ['E', '+'] rest
        | 'E' :: '-' :: rest => digitsAfter ['E', '-'] rest
        | 'E' :: rest => digitsAfter ['E'] rest
        | _ => .ok ([], cs3)
      match expPart with
      | .error e => .error e
      | .ok (ep, cs4) => .ok (sign ++ ip ++ fp ++ ep, cs4)

/-- Read the rest of a literal name (`true`, `false`, `null`). -/
def expectWord : List Char → List Char → Except DecodeError (List Char)
  | [], cs => .ok cs
  | _ :: _, [] => .error .unexpectedEOF
  | w :: ws, c :: cs => if c == w then expectWord ws cs else .error .malformed

/-- The nesting limit `maxNestingDepth` of the scanner. -/
def maxNestingDepth : Nat := 10000

mutual
/-- Read one JSON value from the front of the input. -/
def parseValue : Nat → Nat → List Char → Except DecodeError (JSON × List Char)
  | 0, _, _ => .error .malformed
  | fuel + 1, depth, cs =>
    match skipSpace cs with
    | [] => .error .unexpectedEOF
    | c :: rest =>
      if c == '\x7b' then
        if depth + 1 > maxNestingDepth then .error .malformed
        else
          match skipSpace rest with
          | [] => .error .unexpectedEOF
          | d :: rest2 =>
            if d == '\x7d' then .ok (.object [], rest2)
            else
              match parseMembers fuel (depth + 1) (d :: rest2) with
              | .ok (fs, out) => .ok (.object fs, out)
              | .error e => .error e
      else if c == '[' then
        if depth + 1 > maxNestingDepth then .error .malformed
        else
          match skipSpace rest with
          | [] => .error .unexpectedEOF
          | d :: rest2 =>
            if d == ']' then .ok (.array [], rest2)
            else
              match parseElements fuel (depth + 1) (d :: rest2) with
              | .ok (xs, out) => .ok (.array xs, out)
              | .error e => .error e
      else if c == '"' then
        match parseString (rest.length + 1) rest with
        | .ok (s, out) => .ok (.string s, out)
        | .error e => .error e
      else if c == '-' || isDigit c then
        match parseNumber (c :: rest) with
        | .ok (lit, out) => .ok (.number lit, out)
        | .error e => .error e
      else if c == 't' then
        match expectWord ['r', 'u', 'e'] rest with
        | .ok out => .ok (.bool true, out)
        | .error e => .error e
      else if c == 'f' then
        match expectWord ['a', 'l', 's', 'e'] rest with
        | .ok out => .ok (.bool false, out)
        | .error e => .error e
      else if c == 'n' then
        match expectWord ['u', 'l', 'l'] rest with
        | .ok out => .ok (.null, out)
        | .error e => .error e
      else .error .malformed

/-- Read the elements of an array up to and including the closing bracket;
the input starts at the first element. -/
def parseElements : Nat → Nat → List Char → Except DecodeError (List JSON × List Char)
  | 0, _, _ => .error .malformed
  | fuel + 1, depth, cs =>
    match parseValue fuel depth cs with
    | .error e => .error e
    | .ok (v, rest) =>
      match skipSpace rest with
      | [] => .error .unexpectedEOF
      | d :: rest2 =>
        if d == ']' then .ok ([v], rest2)
        else if d == ',' then
          match parseElements fuel depth rest2 with
          | .ok (vs, out) => .ok (v :: vs, out)
          | .error e => .error e
        else .error .malformed

/-- Read the members of an object up to and including the closing brace; the
input starts at the first key. -/
def parseMembers : Nat → Nat → List Char →
    Except DecodeError (List (List Char × JSON) × List Char)
  | 0, _, _ => .error .malformed
  | fuel + 1, depth, cs =>
    match skipSpace cs with
    | [] => .error .unexpectedEOF
    | q :: rest =>
      if q == '"' then
        match parseString (rest.length + 1) rest with
        | .error e => .error e
        | .ok (key, rest2) =>
          match skipSpace rest2 with
          | [] => .error .unexpectedEOF
          | colon :: rest3 =>
            if colon == ':' then
              match parseValue fuel depth rest3 with
              | .error e => .error e
              | .ok (v, rest4) =>
                match skipSpace rest4 with
                | [] => .error .unexpectedEOF
                | d :: rest5 =>
                  if d == '\x7d' then .ok ([(key, v)], rest5)
                  else if d == ',' then
                    match parseMembers fuel depth rest5 with
                    | .ok (fs, out) => .ok ((key, v) :: fs, out)
                    | .error e => .error e
                  else .error .malformed
            else .error .malformed
      else .error .malformed
end

/-- The value `(*json.Decoder).Decode` reads: the first JSON value of the
stream.  Whatever follows that value is left unread.  An input with nothing
but white space is `io.EOF`. -/
def readValue (body : String) : Except DecodeError JSON :=
  match skipSpace body.toList with
  | [] => .error .eof
  | cs =>
    match parseValue (2 * cs.length + 2) 0 cs with
    | .ok (v, _) => .ok v
    | .error e => .error e

/-! ## Decoding into `Repository` -/

/-- Value of a run of decimal digits, `none` when a character is not a digit. -/
def digitsValue : List Char → Nat → Option Nat
  | [], acc => some acc
  | c :: cs, acc =>
    if isDigit c then digitsValue cs (acc * 10 + (c.toNat - '0'.toNat)) else none

/-- The call `strconv.ParseInt(lit, 10, 64)` on a JSON number literal: the
literal must be an optional sign and digits, and the value must fit `int64`. -/
def parseInt64 (lit : List Char) : Option Int :=
  let (neg, ds) := match lit with
    | '-' :: rest => (true, rest)
    | _ => (false, lit)
  match ds with
  | [] => none
  | _ =>
    match digitsValue ds 0 with
    | none => none
    | some n =>
      let v : Int := if neg then -(n : Int) else (n : Int)
      if -(2 : Int) ^ 63 ≤ v ∧ v < (2 : Int) ^ 63 then some v else none

/-- Upper-case an ASCII letter. -/
def asciiUpper (c : Char) : Char :=
  if 'a' ≤ c && c ≤ 'z' then Char.ofNat (c.toNat - 32) else c

/-- Whether the object key `key` selects the struct field tagged `name`: an
exact match or a match up to letter case.  For the tags of `Repository`, which
are ASCII letters other than `k` and `s`, the case folding of `encoding/json`
coincides with ASCII case folding. -/
def keyMatches (name : String) (key : List Char) : Bool :=
  key.map asciiUpper == name.toList.map asciiUpper

/-- Store a JSON value into the field `Login`: a `null` leaves the field as
it is, a value that is not a string is an `UnmarshalTypeError`. -/
def storeLogin (o : RepositoryOwner) : JSON → Except DecodeError RepositoryOwner
  | .null => .ok o
  | .string s => .ok { o with Login := String.mk s }
  | _ => .error .typeMismatch

/-- Store one member of the `owner` object into the `Owner` field; a key no
field is tagged with is skipped. -/
def decodeOwnerField (o : RepositoryOwner) (key : List Char) (v : JSON) :
    Except DecodeError RepositoryOwner :=
  if keyMatches "login" key then storeLogin o v else .ok o

/-- Store the members of the `owner` object, in input order. -/
def decodeOwnerFields (o : RepositoryOwner) :
    List (List Char × JSON) → Except DecodeError RepositoryOwner
  | [] => .ok o
  | (key, v) :: rest =>
    match decodeOwnerField o key v with
    | .error e => .error e
    | .ok o2 => decodeOwnerFields o2 rest

/-- Store a JSON value into the field `ID`: the literal of a number goes
through `strconv.ParseInt`. -/
def storeID (r : Repository) : JSON → Except DecodeError Repository
  | .null => .ok r
  | .number lit =>
    match parseInt64 lit with
    | some n => .ok { r with ID := n }
    | none => .error .typeMismatch
  | _ => .error .typeMismatch

/-- Store a JSON value into the field `Name`. -/
def storeName (r : Repository) : JSON → Except DecodeError Repository
  | .null => .ok r
  | .string s => .ok { r with Name := String.mk s }
  | _ => .error .typeMismatch

/-- Store a JSON value into the field `Owner`: an object is decoded into the
struct the field already holds. -/
def storeOwner (r : Repository) : JSON → Except DecodeError Repository
  | .null => .ok r
  | .object fs =>
    match decodeOwnerFields r.Owner fs with
    | .ok o => .ok { r with Owner := o }
    | .error e => .error e
  | _ => .error .typeMismatch

/-- Store one member of the top-level object into `repoObj`.  A `null` leaves
the field as it is, a key no field is tagged with is skipped, and a value of a
JSON type the field cannot hold is an `UnmarshalTypeError`. -/
def decodeField (r : Repository) (key : List Char) (v : JSON) :
    Except DecodeError Repository :=
  if keyMatches "id" key then storeID r v
  else if keyMatches "name" key then storeName r v
  else if keyMatches "owner" key then storeOwner r v
  else .ok r

/-- Store the members of the top-level object, in input order. -/
def decodeFields (r : Repository) :
    List (List Char × JSON) → Except DecodeError Repository
  | [] => .ok r
  | (key, v) :: rest =>
    match decodeField r key v with
    | .error e => .error e
    | .ok r2 => decodeFields r2 rest

/-- Unmarshal a JSON value into a `Repository` that starts as `r`. -/
def unmarshalRepository (r : Repository) : JSON → Except DecodeError Repository
  | .null => .ok r
  | .object fs => decodeFields r fs
  | _ => .error .typeMismatch

/-- The statement `json.NewDecoder(resp.Body).Decode(&repoObj)` on a fresh
`repoObj`: the decoded struct, or the error. -/
def decodeRepository (body : String) : Except DecodeError Repository :=
  match readValue body with
  | .error e => .error e
  | .ok v => unmarshalRepository Repository.zero v

/-! ## Encoding a `Repository` -/

/-- Upper-case-free hexadecimal digit, as in the table `hex` of `encoding/json`. -/
def hexDigit (n : Nat) : Char :=
  if n < 10 then Char.ofNat ('0'.toNat + n) else Char.ofNat ('a'.toNat + (n - 10))

/-- The escaped form of one character inside a JSON string, with HTML escaping
on (the default of `json.Encoder` and of `json.Marshal`). -/
def escapeChar (c : Char) : List Char :=
  if c == '"' then ['\\', '"']
  else if c == '\\' then ['\\', '\\']
  else if c == Char.ofNat 8 then ['\\', 'b']
  else if c == Char.ofNat 12 then ['\\', 'f']
  else if c == '\n' then ['\\', 'n']
  else if c == '\r' then ['\\', 'r']
  else if c == '\t' then ['\\', 't']
  else if c.toNat < 0x20 || c == '<' || c == '>' || c == '&' then
    ['\\', 'u', '0', '0', hexDigit (c.toNat / 16), hexDigit (c.toNat % 16)]
  else if c == Char.ofNat 0x2028 then ['\\', 'u', '2', '0', '2', '8']
  else if c == Char.ofNat 0x2029 then ['\\', 'u', '2', '0', '2', '9']
  else [c]

/-- A Go string as a JSON string literal. -/
def quoteString (s : String) : String :=
  String.mk ('"' :: (s.toList.flatMap escapeChar ++ ['"']))

/-- Decimal digits of a natural number, most significant first. -/
def natDigits : Nat → Nat → List Char → List Char
  | 0, _, acc => acc
  | fuel + 1, n, acc =>
    let acc2 := Char.ofNat ('0'.toNat + n % 10) :: acc
    if n / 10 = 0 then acc2 else natDigits fuel (n / 10) acc2

/-- The call `strconv.FormatInt(n, 10)`. -/
def formatInt (n : Int) : String :=
  match n with
  | .ofNat m => String.mk (natDigits (m + 1) m [])
  | .negSucc m => String.mk ('-' :: natDigits (m + 2) (m + 1) [])

/-- The compact JSON text `encoding/json` produces for a `Repository`: the
fields in declaration order under their tags. -/
def marshalRepository (r : Repository) : String :=
  "\x7b\"id\":" ++ formatInt r.ID ++ ",\"name\":" ++ quoteString r.Name ++
    ",\"owner\":\x7b\"login\":" ++ quoteString r.Owner.Login ++ "\x7d\x7d"

/-! ## Marshalling Go values (`json.MarshalIndent`) -/

/-- A `float64` as far as marshalling cares: `finite num den` stands for the
finite value nearest to `num / den`. -/
inductive Float64 where
  | finite (num : Int) (den : Nat)
  | nan
  | posInf
  | negInf
  deriving DecidableEq, Repr

/-- The Go values `encoding/json` can be handed through an `interface{}`, by
kind.  Strings, integers and floats are the basic kinds; `chan`, `func` and
`complex` are the kinds it rejects. -/
inductive GoValue where
  | string (s : String)
  | int (n : Int)
  | float64 (f : Float64)
  | slice (items : List GoValue)
  | map (entries : List (String × GoValue))
  | struct (fields : List (String × GoValue))
  | chan
  | func
  | complex

/-- The JSON document a successful marshal produces, as a tree.  The members
of an object are in output order. -/
inductive Doc where
  | string (s : String)
  | int (n : Int)
  | float (num : Int) (den : Nat)
  | array (items : List Doc)
  | object (members : List (String × Doc))

/-- The errors of `json.Marshal`. -/
inductive MarshalError where
  | unsupportedType
  | unsupportedValue
  deriving DecidableEq, Repr

/-- The order of map keys in the output: byte-wise comparison of the UTF-8
texts, which is the comparison of their code points from the left. -/
def keyLess : List Char → List Char → Bool
  | [], [] => false
  | [], _ :: _ => true
  | _ :: _, [] => false
  | a :: as, b :: bs =>
    if a.toNat < b.toNat then true
    else if b.toNat < a.toNat then false
    else keyLess as bs

/-- Insert a member into a list of members sorted by key. -/
def insertMember (m : String × Doc) : List (String × Doc) → List (String × Doc)
  | [] => [m]
  | x :: xs =>
    if keyLess m.1.toList x.1.toList then m :: x :: xs else x :: insertMember m xs

/-- Sort members by key, as `encoding/json` does for the keys of a map. -/
def sortMembers : List (String × Doc) → List (String × Doc)
  | [] => []
  | m :: ms => insertMember m (sortMembers ms)

mutual
/-- The document of a Go value, or the error `json.Marshal` reports. -/
def marshal : GoValue → Except MarshalError Doc
  | .string s => .ok (.string s)
  | .int n => .ok (.int n)
  | .float64 (.finite num den) => .ok (.float num den)
  | .float64 _ => .error .unsupportedValue
  | .slice items =>
    match marshalItems items with
    | .ok ds => .ok (.array ds)
    | .error e => .error e
  | .map entries =>
    match marshalMembers entries with
    | .ok ms => .ok (.object (sortMembers ms))
    | .error e => .error e
  | .struct fields =>
    match marshalMembers fields with
    | .ok ms => .ok (.object ms)
    | .error e => .error e
  | .chan => .error .unsupportedType
  | .func => .error .unsupportedType
  | .complex => .error .unsupportedType

/-- Marshal the elements of a slice. -/
def marshalItems : List GoValue → Except MarshalError (List Doc)
  | [] => .ok []
  | v :: vs =>
    match marshal v with
    | .error e => .error e
    | .ok d =>
      match marshalItems vs with
      | .error e => .error e
      | .ok ds => .ok (d :: ds)

/-- Marshal the values of the entries of a map or the fields of a struct. -/
def marshalMembers : List (String × GoValue) → Except MarshalError (List (String × Doc))
  | [] => .ok []
  | (k, v) :: rest =>
    match marshal v with
    | .error e => .error e
    | .ok d =>
      match marshalMembers rest with
      | .error e => .error e
      | .ok ms => .ok ((k, d) :: ms)
end

/-- The call `json.MarshalIndent(v, "", "    ")`: the document that is printed
with four-space indentation, or the error. -/
def MarshalIndent (v : GoValue) : Except MarshalError Doc := marshal v

/-- The type `http.Header`, a map from header names to their values. -/
abbrev Header := List (String × List String)

/-- A `Header` as a Go value of type `map[string][]string`. -/
def Header.toGoValue (h : Header) : GoValue :=
  .map (h.map fun kv => (kv.1, .slice (kv.2.map GoValue.string)))

/-- A `Repository` as a Go value, the fields under their JSON tags. -/
def Repository.toGoValue (r : Repository) : GoValue :=
  .struct [("id", .int r.ID), ("name", .string r.Name),
    ("owner", .struct [("login", .string r.Owner.Login)])]

/-- The method `Seconds` of `time.Duration` (a count of nanoseconds). -/
def Seconds (d : Int) : Float64 := .finite d 1000000000

/-! ## Building the outbound request (`net/url`, `http.NewRequest`)

`net/url` works on the bytes of a Go string, and unescaping a path can yield
bytes that are no text at all.  The URL model therefore works on lists of
bytes; a `String` enters it through its UTF-8 encoding. -/

/-- The UTF-8 encoding of one character. -/
def utf8EncodeChar (c : Char) : List Nat :=
  let n := c.toNat
  if n < 0x80 then [n]
  else if n < 0x800 then [0xC0 + n / 0x40, 0x80 + n % 0x40]
  else if n < 0x10000 then [0xE0 + n / 0x1000, 0x80 + n / 0x40 % 0x40, 0x80 + n % 0x40]
  else [0xF0 + n / 0x40000, 0x80 + n / 0x1000 % 0x40, 0x80 + n / 0x40 % 0x40, 0x80 + n % 0x40]

/-- The bytes of a Go string with the given text. -/
def utf8 (s : String) : List Nat := s.toList.flatMap utf8EncodeChar

/-- The errors of `url.Parse` and `http.NewRequest`. -/
inductive RequestError where
  | invalidMethod
  | controlCharacter
  | missingScheme
  | colonInFirstSegment
  | invalidHost
  | invalidEscape
  deriving DecidableEq, Repr

/-- Split at the first occurrence of the byte `sep` (`strings.Cut`): the bytes
before it, and the bytes after it when `sep` occurs. -/
def cut (sep : Nat) : List Nat → List Nat × Option (List Nat)
  | [] => ([], none)
  | c :: cs =>
    if c == sep then ([], some cs)
    else
      let (before, after) := cut sep cs
      (c :: before, after)

/-- The function `stringContainsCTLByte`: a byte below 0x20 or the byte 0x7f. -/
def containsCTL (s : List Nat) : Bool :=
  s.any fun c => c < 0x20 || c == 0x7f

/-- ASCII letter test on a byte. -/
def isLetterByte (c : Nat) : Bool :=
  ('a'.toNat ≤ c && c ≤ 'z'.toNat) || ('A'.toNat ≤ c && c ≤ 'Z'.toNat)

/-- Decimal digit test on a byte. -/
def isDigitByte (c : Nat) : Bool := '0'.toNat ≤ c && c ≤ '9'.toNat

/-- The function `ishex`. -/
def ishex (c : Nat) : Bool :=
  isDigitByte c || ('a'.toNat ≤ c && c ≤ 'f'.toNat) || ('A'.toNat ≤ c && c ≤ 'F'.toNat)

/-- The function `unhex`. -/
def unhex (c : Nat) : Nat :=
  if isDigitByte c then c - '0'.toNat
  else if 'a'.toNat ≤ c && c ≤ 'f'.toNat then c - 'a'.toNat + 10
  else if 'A'.toNat ≤ c && c ≤ 'F'.toNat then c - 'A'.toNat + 10
  else 0

/-- The parts of a URL that `escape` and `unescape` tell apart (the modes
`encodePath`, `encodeHost` and `encodeFragment`). -/
inductive Encoding where
  | path
  | host
  | fragment
  deriving DecidableEq, Repr

/-- The function `unescape` for a path or a fragment: every `%` must be
followed by two hexadecimal digits, and the three bytes become the byte they
denote.  The result is `none` for an `EscapeError`. -/
def unescape : List Nat → Option (List Nat)
  | [] => some []
  | c :: cs =>
    if c == '%'.toNat then
      match cs with
      | a :: b :: rest =>
        if ishex a && ishex b then
          match unescape rest with
          | some out => some ((unhex a * 16 + unhex b) :: out)
          | none => none
        else none
      | _ => none
    else
      match unescape cs with
      | some out => some (c :: out)
      | none => none

/-- Membership of a byte in the bytes of a text. -/
def oneOf (chars : String) (c : Nat) : Bool := (chars.toList.map Char.toNat).contains c

/-- The function `shouldEscape`. -/
def shouldEscape (c : Nat) (mode : Encoding) : Bool :=
  -- unreserved characters (alphanum)
  if isLetterByte c || isDigitByte c then false
  else if mode == .host && (oneOf "!$&()*+,;=:[]<>\"" c || c == 39) then false
  -- unreserved characters (mark)
  else if oneOf "-_.~" c then false
  -- reserved characters
  else if oneOf "$&+,/:;=?@" c then
    match mode with
    | .path => c == '?'.toNat
    | .fragment => false
    | .host => true
  else if mode == .fragment && oneOf "!()*" c then false
  -- everything else must be escaped
  else true

/-- The table `upperhex`. -/
def upperhex (n : Nat) : Nat :=
  if n < 10 then '0'.toNat + n else 'A'.toNat + (n - 10)

/-- The function `escape`: a byte that should be escaped becomes `%` and its
two hexadecimal digits. -/
def escape (s : List Nat) (mode : Encoding) : List Nat :=
  s.flatMap fun c =>
    if shouldEscape c mode then ['%'.toNat, upperhex (c / 16), upperhex (c % 16)] else [c]

/-- The function `validEncoded`: no byte of the text needs escaping. -/
def validEncoded (s : List Nat) (mode : Encoding) : Bool :=
  s.all fun c =>
    if oneOf "!$&()*+,;=:@" c || c == 39 then true
    else if oneOf "[]" c then true
    else if c == '%'.toNat then true
    else !shouldEscape c mode

/-- The struct `url.URL`, without the user information (the URLs of the
handler have none). -/
structure URL where
  Scheme : List Nat
  Opaque : List Nat
  Host : List Nat
  Path : List Nat
  RawPath : List Nat
  ForceQuery : Bool
  RawQuery : List Nat
  Fragment : List Nat
  RawFragment : List Nat
  deriving DecidableEq, Repr

/-- The method `EscapedPath`. -/
def URL.EscapedPath (u : URL) : List Nat :=
  if !u.RawPath.isEmpty && validEncoded u.RawPath .path &&
      unescape u.RawPath == some u.Path then u.RawPath
  else if u.Path == ['*'.toNat] then ['*'.toNat]
  else escape u.Path .path

/-- The method `EscapedFragment`. -/
def URL.EscapedFragment (u : URL) : List Nat :=
  if !u.RawFragment.isEmpty && validEncoded u.RawFragment .fragment &&
      unescape u.RawFragment == some u.Fragment then u.RawFragment
  else escape u.Fragment .fragment

/-- The method `String` of `url.URL`: the URL reassembled from its parts. -/
def URL.String (u : URL) : List Nat :=
  let scheme := if u.Scheme.isEmpty then [] else u.Scheme ++ [':'.toNat]
  let front :=
    if !u.Opaque.isEmpty then scheme ++ u.Opaque
    else
      let authority :=
        if !u.Scheme.isEmpty || !u.Host.isEmpty then
          (if !u.Host.isEmpty || !u.Path.isEmpty then ['/'.toNat, '/'.toNat] else []) ++
            (if !u.Host.isEmpty then escape u.Host .host else [])
        else []
      let buf := scheme ++ authority
      let path := u.EscapedPath
      let buf :=
        if !path.isEmpty && path.head? != some '/'.toNat && !u.Host.isEmpty
        then buf ++ ['/'.toNat] else buf
      let buf :=
        if buf.isEmpty && (cut '/'.toNat path).1.contains ':'.toNat
        then ['.'.toNat, '/'.toNat] else buf
      buf ++ path
  let query := if u.ForceQuery || !u.RawQuery.isEmpty then '?'.toNat :: u.RawQuery else []
  let fragment := if !u.Fragment.isEmpty then '#'.toNat :: u.EscapedFragment else []
  front ++ query ++ fragment

/-- The function `getScheme`: scans the bytes after the first `i` ones
(`start` tells whether `i = 0`); the result is the scheme and the rest. -/
def getSchemeFrom (start : Bool) (seen : List Nat) (all : List Nat) :
    List Nat → Except RequestError (List Nat × List Nat)
  | [] => .ok ([], all)
  | c :: cs =>
    if isLetterByte c then getSchemeFrom false (seen ++ [c]) all cs
    else if isDigitByte c || oneOf "+-." c then
      if start then .ok ([], all) else getSchemeFrom false (seen ++ [c]) all cs
    else if c == ':'.toNat then
      if start then .error .missingScheme else .ok (seen, cs)
    else .ok ([], all)

/-- The function `getScheme` of `net/url`. -/
def getScheme (rawURL : List Nat) : Except RequestError (List Nat × List Nat) :=
  getSchemeFrom true [] rawURL rawURL

/-- The host check of `parseAuthority`, for an authority that is a plain
registered name (letters, digits, dots and hyphens).  Authorities with user
information, a port, an IP literal or escapes do not occur for `baseURL` and
are reported as `invalidHost` here. -/
def plainHost (authority : List Nat) : Bool :=
  authority.all fun c => isLetterByte c || isDigitByte c || oneOf ".-" c

/-- Lower-case an ASCII letter (`strings.ToLower` on a scheme). -/
def lowerByte (c : Nat) : Nat :=
  if 'A'.toNat ≤ c && c ≤ 'Z'.toNat then c + 32 else c

/-- The method `setPath`: the path is stored unescaped; the text as written
is kept as `RawPath` only when it is not the default escaping of the path. -/
def URL.setPath (u : URL) (p : List Nat) : Except RequestError URL :=
  match unescape p with
  | none => .error .invalidEscape
  | some path =>
    .ok { u with Path := path, RawPath := if p == escape path .path then [] else p }

/-- The method `setFragment`. -/
def URL.setFragment (u : URL) (f : List Nat) : Except RequestError URL :=
  match unescape f with
  | none => .error .invalidEscape
  | some frag =>
    .ok { u with Fragment := frag, RawFragment := if f == escape frag .fragment then [] else f }

/-- The URL with every part empty. -/
def URL.empty : URL :=
  { Scheme := [], Opaque := [], Host := [], Path := [], RawPath := [], ForceQuery := false,
    RawQuery := [], Fragment := [], RawFragment := [] }

/-- The function `parse(rawURL, false)` of `net/url`: everything of `url.Parse`
but the fragment. -/
def parseNoFragment (rawURL : List Nat) : Except RequestError URL :=
  if containsCTL rawURL then .error .controlCharacter
  else if rawURL == ['*'.toNat] then .ok { URL.empty with Path := ['*'.toNat] }
  else
    match getScheme rawURL with
    | .error e => .error e
    | .ok (scheme, rest0) =>
      let (rest, query) := cut '?'.toNat rest0
      let u : URL :=
        { URL.empty with
          Scheme := scheme.map lowerByte
          ForceQuery := query == some []
          RawQuery := query.getD [] }
      match rest with
      | 47 :: 47 :: afterSlashes =>
        if scheme.isEmpty && afterSlashes.head? == some '/'.toNat then u.setPath rest
        else
          let (authority, path) := cut '/'.toNat afterSlashes
          let path := match path with
            | some p => '/'.toNat :: p
            | none => []
          if plainHost authority then { u with Host := authority }.setPath path
          else .error .invalidHost
      | 47 :: _ => u.setPath rest
      | _ =>
        if !scheme.isEmpty then .ok { u with Opaque := rest }
        else if (cut '/'.toNat rest).1.contains ':'.toNat then .error .colonInFirstSegment
        else u.setPath rest

/-- The function `url.Parse`: the fragment is cut off at the first `#`, the
rest is parsed, and a fragment that is not empty is stored. -/
def urlParse (rawURL : List Nat) : Except RequestError URL :=
  let (u, frag) := cut '#'.toNat rawURL
  match parseNoFragment u with
  | .error e => .error e
  | .ok url =>
    match frag with
    | none => .ok url
    | some [] => .ok url
    | some f => url.setFragment f

/-- The outbound `*http.Request`, as far as the handler touches it. -/
structure Request where
  Method : String
  URL : URL
  Header : Header
  deriving DecidableEq, Repr

/-- The method `Set` of `http.Header`, for a key in canonical form. -/
def Header.Set (h : Header) (key value : String) : Header :=
  h.filter (fun kv => kv.1 != key) ++ [(key, [value])]

/-- Token characters of an HTTP method (`validMethod`). -/
def isTokenChar (c : Char) : Bool :=
  isLetter c || isDigit c || "!#$%&*+-.^_|~".toList.contains c ||
    c.toNat == 39 || c.toNat == 96

/-- The function `http.NewRequest(method, url, nil)`: a request with an empty
header, or the error of the method check or of `url.Parse`. -/
def NewRequest (method url : String) : Except RequestError Request :=
  if method.toList.isEmpty || !method.toList.all isTokenChar then .error .invalidMethod
  else
    match urlParse (utf8 url) with
    | .error e => .error e
    | .ok u => .ok { Method := method, URL := u, Header := [] }

/-! ## The outside world -/

/-- The `*http.Response` of the upstream, as far as the handler reads it. -/
structure Response where
  Status : String
  StatusCode : Int
  Header : Header
  Body : String
  deriving DecidableEq, Repr

/-- The ways `client.Do` fails. -/
inductive TransportError where
  | dns
  | connect
  | timeout
  | other
  deriving DecidableEq, Repr

/-- The `http.Client` of the handler; `Timeout` is a `time.Duration`, a count
of nanoseconds. -/
structure Client where
  Timeout : Int
  deriving DecidableEq, Repr

/-- Everything outside the handler that one run of it depends on: whether the
outbound call fails in transport, the response the upstream gives to a
request, the duration measured around the call, and the Go string that
`req.URL.String()` puts into the log record, as `encoding/json` writes it (how
bytes that are no valid UTF-8 are replaced there is left open). -/
structure World where
  transport : Client → Request → Option TransportError
  upstream : Request → Response
  elapsedTime : Int
  urlString : URL → String

/-- The call `client.Do(req)`. -/
def World.Do (world : World) (client : Client) (req : Request) :
    Except TransportError Response :=
  match world.transport client req with
  | some e => .error e
  | none => .ok (world.upstream req)

/-! ## The handler (main.go, lines 36-111) -/

/-- An argument of a `log.Printf` call. -/
inductive LogArg where
  | requestError (e : RequestError)
  | transportError (e : TransportError)
  | decodeError (e : DecodeError)
  | marshalError (e : MarshalError)
  | int (n : Int)
  | string (s : String)

/-- The calls with an effect outside the handler, as written in `getRepo`. -/
inductive Event where
  /-- The call `log.Printf(format, args...)`. -/
  | logPrintf (format : String) (args : List LogArg)
  /-- The call `client.Do(req)`. -/
  | clientDo (client : Client) (req : Request)
  /-- The call `fmt.Println(string(logJSON))`. -/
  | println (logJSON : Doc)
  /-- The call `w.Header().Set(key, value)`. -/
  | headerSet (key value : String)
  /-- The call `json.NewEncoder(w).Encode(repoObj)`. -/
  | encode (repoObj : Repository)
  /-- The call `http.Error(w, error, code)`. -/
  | httpError (error : String) (code : Int)

/-- The constant `http.StatusInternalServerError`. -/
def StatusInternalServerError : Int := 500

/-- The constant `http.StatusOK`. -/
def StatusOK : Int := 200

/-- The constant `time.Second`, in nanoseconds. -/
def Second : Int := 1000000000

/-- The map literal `logData` of the handler. -/
def logData (world : World) (req : Request) (resp : Response) (repoObj : Repository) :
    GoValue :=
  .map [
    ("method", .string req.Method),
    ("url", .string (world.urlString req.URL)),
    ("headers", req.Header.toGoValue),
    ("elapsedTime", .float64 (Seconds world.elapsedTime)),
    ("status", .string resp.Status),
    ("headersOut", resp.Header.toGoValue),
    ("body", repoObj.toGoValue)]

/-- The handler `getRepo`, for the path parameters `owner` and `repo` that the
router hands over: the calls it makes, in order.  The branch after the final
`Encode` is left out: marshalling a `Repository` has no failing case and the
write goes to the response writer modelled below, which takes every write. -/
def getRepo (world : World) (owner repo : String) : List Event :=
  -- Build the request URL
  let url := baseURL ++ "/repos/" ++ owner ++ "/" ++ repo
  -- Create a new HTTP client with a timeout
  let client : Client := { Timeout := Second * 10 }
  -- Create a new request with a custom user agent header
  match NewRequest "GET" url with
  | .error err =>
    [.logPrintf "Error creating request: %v" [.requestError err],
     .httpError "Error creating request" StatusInternalServerError]
  | .ok req0 =>
    let req := { req0 with Header := req0.Header.Set "User-Agent" "my-github-api-client" }
    -- Send the request and measure the elapsed time
    .clientDo client req ::
    match world.Do client req with
    | .error err =>
      [.logPrintf "Error sending request: %v" [.transportError err],
       .httpError "Error sending request" StatusInternalServerError]
    | .ok resp =>
      -- Check the response status code
      if resp.StatusCode ≠ StatusOK then
        [.logPrintf "Error response status code: %d %s"
           [.int resp.StatusCode, .string resp.Status],
         .httpError "Error response status code" resp.StatusCode]
      else
        -- Parse the response body into a Repository object
        match decodeRepository resp.Body with
        | .error err =>
          [.logPrintf "Error decoding response body: %v" [.decodeError err],
           .httpError "Error decoding response body" StatusInternalServerError]
        | .ok repoObj =>
          -- Log the request and response metadata
          match MarshalIndent (logData world req resp repoObj) with
          | .error err =>
            [.logPrintf "Error encoding log data: %v" [.marshalError err],
             .httpError "Error encoding log data" StatusInternalServerError]
          | .ok logJSON =>
            [.println logJSON,
             -- Write the Repository object as a JSON response
             .headerSet "Content-Type" "application/json",
             .encode repoObj]

/-! ## The response writer of `net/http` -/

/-- The state of the `http.ResponseWriter` handed to the handler. -/
structure ResponseWriter where
  /-- The header map the handler edits. -/
  header : List (String × String)
  /-- Whether the status line has been committed. -/
  wroteHeader : Bool
  /-- The committed status code. -/
  status : Int
  /-- The header map as it was when the status was committed. -/
  sentHeader : List (String × String)
  /-- The interim (1xx) status codes sent before the final one. -/
  interim : List Int
  /-- The body bytes written so far. -/
  body : String
  /-- Whether a call panicked, which ends the handler. -/
  panicked : Bool
  deriving DecidableEq, Repr

/-- The writer at the start of a request. -/
def ResponseWriter.fresh : ResponseWriter :=
  { header := [], wroteHeader := false, status := 0, sentHeader := [],
    interim := [], body := "", panicked := false }

/-- The call `w.Header().Set(key, value)`, for a key in canonical form. -/
def ResponseWriter.headerSet (w : ResponseWriter) (key value : String) : ResponseWriter :=
  { w with header := w.header.filter (fun kv => kv.1 != key) ++ [(key, value)] }

/-- The method `WriteHeader`: a second call is ignored, a code outside
100..999 panics, a 1xx code other than 101 sends an interim response, any other
code is committed as the status of the response. -/
def ResponseWriter.WriteHeader (w : ResponseWriter) (code : Int) : ResponseWriter :=
  if w.wroteHeader then w
  else if code < 100 ∨ code > 999 then { w with panicked := true }
  else if 100 ≤ code ∧ code ≤ 199 ∧ code ≠ 101 then { w with interim := w.interim ++ [code] }
  else { w with wroteHeader := true, status := code, sentHeader := w.header }

/-- The function `bodyAllowedForStatus`. -/
def bodyAllowedForStatus (status : Int) : Bool :=
  if 100 ≤ status ∧ status ≤ 199 then false
  else if status = 204 then false
  else if status = 304 then false
  else true

/-- The method `Write`: commits status 200 if none is committed yet, then
appends the data unless the status allows no body. -/
def ResponseWriter.Write (w : ResponseWriter) (data : String) : ResponseWriter :=
  let w1 := if w.wroteHeader then w else w.WriteHeader StatusOK
  if data.isEmpty then w1
  else if !bodyAllowedForStatus w1.status then w1
  else { w1 with body := w1.body ++ data }

/-- The function `http.Error`: sets the two headers, writes the status, and
prints the message with `fmt.Fprintln`, that is followed by a newline. -/
def ResponseWriter.Error (w : ResponseWriter) (error : String) (code : Int) :
    ResponseWriter :=
  let w1 := (w.headerSet "Content-Type" "text/plain; charset=utf-8").headerSet
    "X-Content-Type-Options" "nosniff"
  let w2 := w1.WriteHeader code
  if w2.panicked then w2 else w2.Write (error ++ "\n")

/-- The method `Encode` of a `json.Encoder` on the writer: the JSON text of
the value followed by a newline, in one `Write`. -/
def ResponseWriter.Encode (w : ResponseWriter) (repoObj : Repository) : ResponseWriter :=
  w.Write (marshalRepository repoObj ++ "\n")

/-- The effect of one call of the handler on the writer.  After a panic
nothing more runs. -/
def ResponseWriter.step (w : ResponseWriter) (e : Event) : ResponseWriter :=
  if w.panicked then w
  else
    match e with
    | .headerSet key value => w.headerSet key value
    | .encode repoObj => w.Encode repoObj
    | .httpError error code => w.Error error code
    | _ => w

/-- What the caller of the endpoint receives. -/
inductive Reply where
  /-- A response: its status, the header map of the handler as it was when the
  status was committed, and its body.  The entries the server adds on its own
  (`Date`, `Content-Length`) and the entries it withholds for a status without
  body are not part of the model. -/
  | response (status : Int) (header : List (String × String)) (body : String)
  /-- The handler panicked before a status was written: the server closes the
  connection without a response. -/
  | aborted
  deriving DecidableEq, Repr

/-- The reply of the server for the calls a handler made: the calls are
applied to a fresh writer, and a handler that returns without writing gets
status 200. -/
def serve (events : List Event) : Reply :=
  let w := events.foldl ResponseWriter.step ResponseWriter.fresh
  if w.panicked then .aborted
  else
    let w1 := if w.wroteHeader then w else w.WriteHeader StatusOK
    .response w1.status w1.sentHeader w1.body

/-- The status of a reply. -/
def Reply.status : Reply → Option Int
  | .response status _ _ => some status
  | .aborted => none

/-- The body of a reply. -/
def Reply.body : Reply → Option String
  | .response _ _ body => some body
  | .aborted => none

/-- The value of the header `Content-Type` of a reply. -/
def Reply.contentType : Reply → Option String
  | .response _ header _ => (header.find? fun kv => kv.1 == "Content-Type").map Prod.snd
  | .aborted => none

/-- The documents the handler printed to standard output, in order. -/
def printed : List Event → List Doc
  | [] => []
  | .println logJSON :: rest => logJSON :: printed rest
  | _ :: rest => printed rest

/-- The requests the handler sent, in order. -/
def sent : List Event → List Request
  | [] => []
  | .clientDo _ req :: rest => req :: sent rest
  | _ :: rest => sent rest

/-- The values the handler encoded into the response, in order. -/
def encoded : List Event → List Repository
  | [] => []
  | .encode repoObj :: rest => repoObj :: encoded rest
  | _ :: rest => encoded rest

/-! ## Vocabulary of the statements -/

/-- The URL string `getRepo` builds for `owner` and `repo`. -/
def requestURL (owner repo : String) : String :=
  baseURL ++ "/repos/" ++ owner ++ "/" ++ repo

/-- The client `getRepo` creates. -/
def handlerClient : Client := { Timeout := Second * 10 }

/-- The request `getRepo` sends, given the request `http.NewRequest` returned. -/
def outbound (req0 : Request) : Request :=
  { req0 with Header := req0.Header.Set "User-Agent" "my-github-api-client" }

/-- The headers of a reply written by `http.Error`. -/
def errorHeader : List (String × String) :=
  [("Content-Type", "text/plain; charset=utf-8"), ("X-Content-Type-Options", "nosniff")]

/-- The headers of the success reply. -/
def jsonHeader : List (String × String) := [("Content-Type", "application/json")]

/-- The body of a reply written by `http.Error`: the message and a newline,
or nothing for a status that allows no body. -/
def errorBody (error : String) (code : Int) : String :=
  if bodyAllowedForStatus code then error ++ "\n" else ""

/-- The status codes `WriteHeader` commits as the status of the response. -/
def finalStatus (code : Int) : Prop := code = 101 ∨ (200 ≤ code ∧ code ≤ 999)

/-- Whether a JSON value is an integer literal of value `n` that fits `int64`. -/
def isNumberOf (n : Int) : JSON → Bool
  | .number lit => parseInt64 lit == some n
  | _ => false

/-- Whether a JSON value is the string `s`. -/
def isStringOf (s : String) : JSON → Bool
  | .string t => t == s.toList
  | _ => false

/-- Whether a JSON value is an object that has a member `login`, every such
member being the string `login`. -/
def isOwnerOf (login : String) : JSON → Bool
  | .object fields =>
    fields.any (fun kv => keyMatches "login" kv.1) &&
      fields.all (fun kv => !keyMatches "login" kv.1 || isStringOf login kv.2)
  | _ => false

/-- Whether the members of an object carry the id `n`, the name `name` and the
owner login `login`: a member for each of `id`, `name` and `owner` is present,
and every member under one of these names has that value.  Other members are
unconstrained. -/
def carries (n : Int) (name login : String) (fields : List (List Char × JSON)) : Bool :=
  fields.any (fun kv => keyMatches "id" kv.1) &&
  fields.any (fun kv => keyMatches "name" kv.1) &&
  fields.any (fun kv => keyMatches "owner" kv.1) &&
  fields.all (fun kv => !keyMatches "id" kv.1 || isNumberOf n kv.2) &&
  fields.all (fun kv => !keyMatches "name" kv.1 || isStringOf name kv.2) &&
  fields.all (fun kv => !keyMatches "owner" kv.1 || isOwnerOf login kv.2)

/-- A well-formed upstream body for the values `n`, `name` and `login`: its
first JSON value is an object that carries them. -/
def wellFormedBody (n : Int) (name login : String) (body : String) : Bool :=
  match readValue body with
  | .ok (.object fields) => carries n name login fields
  | _ => false

/-- A body whose first JSON value is an object with no member named `id`,
`name` or `owner`. -/
def omitsFields (body : String) : Bool :=
  match readValue body with
  | .ok (.object fields) =>
    fields.all fun kv =>
      !keyMatches "id" kv.1 && !keyMatches "name" kv.1 && !keyMatches "owner" kv.1
  | _ => false

/-- The document of a header map: an object of arrays of strings, sorted by
header name. -/
def headerDoc (h : Header) : Doc :=
  .object (sortMembers (h.map fun kv => (kv.1, .array (kv.2.map Doc.string))))

/-- The document of a `Repository`. -/
def repositoryDoc (r : Repository) : Doc :=
  .object [("id", .int r.ID), ("name", .string r.Name),
    ("owner", .object [("login", .string r.Owner.Login)])]

/-- The diagnostic record of one exchange: seven entries, in the order in
which a marshalled map lists them (sorted by key). -/
def diagnosticRecord (world : World) (req : Request) (resp : Response)
    (repoObj : Repository) : Doc :=
  .object [
    ("body", repositoryDoc repoObj),
    ("elapsedTime", .float world.elapsedTime 1000000000),
    ("headers", headerDoc req.Header),
    ("headersOut", headerDoc resp.Header),
    ("method", .string req.Method),
    ("status", .string resp.Status),
    ("url", .string (world.urlString req.URL))]

/-- The names of the members of an object document. -/
def Doc.keys : Doc → List String
  | .object members => members.map Prod.fst
  | _ => []

/-- A world in which every outbound call has the same outcome, and in which
the log shows a URL by the characters of its rendering (all of them ASCII for
the URLs used below). -/
def worldOf (failure : Option TransportError) (resp : Response) (elapsed : Int) : World :=
  { transport := fun _ _ => failure
    upstream := fun _ => resp
    elapsedTime := elapsed
    urlString := fun u => String.mk (u.String.map Char.ofNat) }

/-- The request `http.NewRequest` returns for a URL under `baseURL` with the
given path, when the path needs no escaping and there is no query and no
fragment. -/
def plainRequest (path : String) : Request :=
  { Method := "GET"
    URL := { URL.empty with Scheme := utf8 "https", Host := utf8 "api.github.com",
                            Path := utf8 path }
    Header := [] }

/-- An upstream answering 404 with the body of the spec scenario. -/
def notFound : Response :=
  { Status := "404 Not Found", StatusCode := 404, Header := [],
    Body := "\x7b\"message\":\"Not Found\"\x7d" }

/-- An upstream answering 304 without a body. -/
def notModified : Response :=
  { Status := "304 Not Modified", StatusCode := 304, Header := [], Body := "" }

/-- An upstream answering 200 with the given body. -/
def okWith (body : String) : Response :=
  { Status := "200 OK", StatusCode := 200,
    Header := [("Content-Type", ["application/json; charset=utf-8"])], Body := body }

/-- The upstream body of the spec scenario for `octocat/Hello-World`. -/
def helloWorldBody : String :=
  "\x7b\"id\": 1296269, \"name\": \"Hello-World\", \"owner\": \x7b\"login\": \"octocat\"\x7d\x7d"

/-- The decoded value of `helloWorldBody`. -/
def helloWorld : Repository := ⟨1296269, "Hello-World", ⟨"octocat"⟩⟩

/-- The bytes of `baseURL` followed by `/repos/`. -/
def basePath : List Nat := utf8 "https://api.github.com/repos/"

/-- A path parameter made of bytes that `net/url` leaves as they are in a
path: ASCII letters and digits and the characters `-_.~$&+,/:;=@`. -/
def unescapedSegment (s : String) : Bool :=
  (utf8 s).all fun c => !shouldEscape c .path

/-- A path parameter without control characters and without `%`. -/
def plainSegment (s : String) : Bool :=
  s.toList.all fun c => !(c.toNat < 0x20 || c.toNat == 0x7f) && c != '%'

/-! ## Auxiliary facts -/

theorem isEmpty_append_newline (s : String) : (s ++ "\n").isEmpty = false := by
  have h : (s ++ "\n").length ≠ 0 := by
    rw [String.length_append]
    have : ("\n" : String).length = 1 := by decide
    omega
  cases hb : (s ++ "\n").isEmpty with
  | false => rfl
  | true =>
    exfalso
    apply h
    have := (String.isEmpty_iff _).mp hb
    rw [this]; rfl

/-- The writer after `http.Error` with a code that is committed as status. -/
theorem fresh_Error (error : String) (code : Int) (h : finalStatus code) :
    ResponseWriter.fresh.Error error code =
      { ResponseWriter.fresh with
        header := errorHeader, wroteHeader := true, status := code,
        sentHeader := errorHeader, body := errorBody error code } := by
  have h1 : ¬ (code < 100 ∨ code > 999) := by unfold finalStatus at h; omega
  have h2 : ¬ (100 ≤ code ∧ code ≤ 199 ∧ code ≠ 101) := by unfold finalStatus at h; omega
  simp [ResponseWriter.Error, ResponseWriter.headerSet, ResponseWriter.WriteHeader,
    ResponseWriter.fresh, ResponseWriter.Write, h1, h2, errorHeader, errorBody,
    isEmpty_append_newline]
  cases bodyAllowedForStatus code <;> simp

/-- The reply when the only call that touches the writer is one `http.Error`
after a log line. -/
theorem serve_log_error (format : String) (args : List LogArg) (error : String)
    (code : Int) (h : finalStatus code) :
    serve [.logPrintf format args, .httpError error code] =
      .response code errorHeader (errorBody error code) := by
  have hstep : (ResponseWriter.fresh.step (.logPrintf format args)) = ResponseWriter.fresh := by
    simp [ResponseWriter.step, ResponseWriter.fresh]
  have hstep2 : ResponseWriter.fresh.step (.httpError error code) =
      ResponseWriter.fresh.Error error code := by
    simp [ResponseWriter.step, ResponseWriter.fresh]
  simp only [serve, List.foldl, hstep, hstep2, fresh_Error error code h]
  simp [ResponseWriter.fresh]

/-- The same after the outbound call. -/
theorem serve_do_log_error (client : Client) (req : Request) (format : String)
    (args : List LogArg) (error : String) (code : Int) (h : finalStatus code) :
    serve [.clientDo client req, .logPrintf format args, .httpError error code] =
      .response code errorHeader (errorBody error code) := by
  have hstep0 : (ResponseWriter.fresh.step (.clientDo client req)) = ResponseWriter.fresh := by
    simp [ResponseWriter.step, ResponseWriter.fresh]
  have hstep : (ResponseWriter.fresh.step (.logPrintf format args)) = ResponseWriter.fresh := by
    simp [ResponseWriter.step, ResponseWriter.fresh]
  have hstep2 : ResponseWriter.fresh.step (.httpError error code) =
      ResponseWriter.fresh.Error error code := by
    simp [ResponseWriter.step, ResponseWriter.fresh]
  simp only [serve, List.foldl, hstep0, hstep, hstep2, fresh_Error error code h]
  simp [ResponseWriter.fresh]

theorem finalStatus_500 : finalStatus StatusInternalServerError := by
  unfold finalStatus StatusInternalServerError; omega

theorem errorBody_500 (error : String) :
    errorBody error StatusInternalServerError = error ++ "\n" := by
  simp [errorBody, bodyAllowedForStatus, StatusInternalServerError]

/-- The calls of `getRepo` when the request cannot be built. -/
theorem getRepo_of_requestError (world : World) (owner repo : String) (err : RequestError)
    (hreq : NewRequest "GET" (requestURL owner repo) = .error err) :
    getRepo world owner repo =
      [.logPrintf "Error creating request: %v" [.requestError err],
       .httpError "Error creating request" StatusInternalServerError] := by
  unfold requestURL at hreq
  unfold getRepo
  simp only [hreq]

/-- The calls of `getRepo` when the outbound call fails. -/
theorem getRepo_of_transportError (world : World) (owner repo : String) (req0 : Request)
    (err : TransportError)
    (hreq : NewRequest "GET" (requestURL owner repo) = .ok req0)
    (hdo : world.Do handlerClient (outbound req0) = .error err) :
    getRepo world owner repo =
      [.clientDo handlerClient (outbound req0),
       .logPrintf "Error sending request: %v" [.transportError err],
       .httpError "Error sending request" StatusInternalServerError] := by
  unfold requestURL at hreq
  unfold handlerClient outbound at hdo
  unfold getRepo
  simp only [hreq, hdo, handlerClient, outbound]

/-- The calls of `getRepo` when the upstream status is not 200. -/
theorem getRepo_of_status (world : World) (owner repo : String) (req0 : Request)
    (resp : Response)
    (hreq : NewRequest "GET" (requestURL owner repo) = .ok req0)
    (hdo : world.Do handlerClient (outbound req0) = .ok resp)
    (hstatus : resp.StatusCode ≠ StatusOK) :
    getRepo world owner repo =
      [.clientDo handlerClient (outbound req0),
       .logPrintf "Error response status code: %d %s"
         [.int resp.StatusCode, .string resp.Status],
       .httpError "Error response status code" resp.StatusCode] := by
  unfold requestURL at hreq
  unfold handlerClient outbound at hdo
  unfold getRepo
  simp only [hreq, hdo, handlerClient, outbound, hstatus, ne_eq, not_false_eq_true, if_true]

/-- The calls of `getRepo` when the body does not decode. -/
theorem getRepo_of_decodeError (world : World) (owner repo : String) (req0 : Request)
    (resp : Response) (err : DecodeError)
    (hreq : NewRequest "GET" (requestURL owner repo) = .ok req0)
    (hdo : world.Do handlerClient (outbound req0) = .ok resp)
    (hstatus : resp.StatusCode = StatusOK)
    (hdec : decodeRepository resp.Body = .error err) :
    getRepo world owner repo =
      [.clientDo handlerClient (outbound req0),
       .logPrintf "Error decoding response body: %v" [.decodeError err],
       .httpError "Error decoding response body" StatusInternalServerError] := by
  unfold requestURL at hreq
  unfold handlerClient outbound at hdo
  unfold getRepo
  simp only [hreq, hdo, handlerClient, outbound, hstatus, hdec, ne_eq, not_true_eq_false,
    if_false]

theorem marshalItems_strings (l : List String) :
    marshalItems (l.map GoValue.string) = .ok (l.map Doc.string) := by
  induction l with
  | nil => simp [marshalItems]
  | cons x xs ih => simp [marshalItems, marshal, ih]

theorem marshalMembers_header (h : Header) :
    marshalMembers (h.map fun kv => (kv.1, GoValue.slice (kv.2.map GoValue.string))) =
      .ok (h.map fun kv => (kv.1, Doc.array (kv.2.map Doc.string))) := by
  induction h with
  | nil => simp [marshalMembers]
  | cons x xs ih =>
    obtain ⟨k, vs⟩ := x
    simp [marshalMembers, marshal, marshalItems_strings, ih]

/-- Marshalling a header map never fails. -/
theorem marshal_header (h : Header) : marshal h.toGoValue = .ok (headerDoc h) := by
  simp [Header.toGoValue, marshal, marshalMembers_header, headerDoc]

/-- Marshalling a `Repository` never fails. -/
theorem marshal_repository (r : Repository) :
    marshal r.toGoValue = .ok (repositoryDoc r) := by
  simp [Repository.toGoValue, marshal, marshalMembers, repositoryDoc]

theorem marshal_string (s : String) : marshal (.string s) = .ok (.string s) := by
  simp [marshal]

theorem marshal_finite (num : Int) (den : Nat) :
    marshal (.float64 (.finite num den)) = .ok (.float num den) := by
  simp [marshal]

theorem marshal_map (entries : List (String × GoValue)) (ms : List (String × Doc))
    (h : marshalMembers entries = .ok ms) :
    marshal (.map entries) = .ok (.object (sortMembers ms)) := by
  simp [marshal, h]

/-- Marshalling the map `logData` gives the diagnostic record. -/
theorem marshalIndent_logData (world : World) (req : Request) (resp : Response)
    (repoObj : Repository) :
    MarshalIndent (logData world req resp repoObj) =
      .ok (diagnosticRecord world req resp repoObj) := by
  unfold MarshalIndent logData
  rw [marshal_map _ [
    ("method", .string req.Method),
    ("url", .string (world.urlString req.URL)),
    ("headers", headerDoc req.Header),
    ("elapsedTime", .float world.elapsedTime 1000000000),
    ("status", .string resp.Status),
    ("headersOut", headerDoc resp.Header),
    ("body", repositoryDoc repoObj)]]
  · simp [sortMembers, insertMember, diagnosticRecord, keyLess]
  · simp only [marshalMembers, marshal_string, marshal_finite, marshal_header,
      marshal_repository, Seconds]

/-- The calls of `getRepo` when the upstream answers 200 and the body decodes. -/
theorem getRepo_of_success (world : World) (owner repo : String) (req0 : Request)
    (resp : Response) (repoObj : Repository)
    (hreq : NewRequest "GET" (requestURL owner repo) = .ok req0)
    (hdo : world.Do handlerClient (outbound req0) = .ok resp)
    (hstatus : resp.StatusCode = StatusOK)
    (hdec : decodeRepository resp.Body = .ok repoObj) :
    getRepo world owner repo =
      [.clientDo handlerClient (outbound req0),
       .println (diagnosticRecord world (outbound req0) resp repoObj),
       .headerSet "Content-Type" "application/json",
       .encode repoObj] := by
  have hlog := marshalIndent_logData world (outbound req0) resp repoObj
  unfold requestURL at hreq
  unfold handlerClient outbound at hdo
  unfold outbound at hlog
  unfold getRepo
  simp only [hreq, hdo, handlerClient, outbound, hstatus, hdec, hlog, ne_eq,
    not_true_eq_false, if_false]

/-- The reply after the calls of the success path. -/
theorem serve_success (client : Client) (req : Request) (logJSON : Doc)
    (repoObj : Repository) :
    serve [.clientDo client req, .println logJSON,
      .headerSet "Content-Type" "application/json", .encode repoObj] =
      .response StatusOK jsonHeader (marshalRepository repoObj ++ "\n") := by
  simp [serve, ResponseWriter.step, ResponseWriter.fresh, ResponseWriter.headerSet,
    ResponseWriter.Encode, ResponseWriter.Write, ResponseWriter.WriteHeader, StatusOK,
    isEmpty_append_newline, bodyAllowedForStatus, jsonHeader]

/-- The five ways a run of `getRepo` can go. -/
theorem getRepo_cases (world : World) (owner repo : String) :
    (∃ err, NewRequest "GET" (requestURL owner repo) = .error err) ∨
    (∃ req0 err, NewRequest "GET" (requestURL owner repo) = .ok req0 ∧
      world.Do handlerClient (outbound req0) = .error err) ∨
    (∃ req0 resp, NewRequest "GET" (requestURL owner repo) = .ok req0 ∧
      world.Do handlerClient (outbound req0) = .ok resp ∧ resp.StatusCode ≠ StatusOK) ∨
    (∃ req0 resp err, NewRequest "GET" (requestURL owner repo) = .ok req0 ∧
      world.Do handlerClient (outbound req0) = .ok resp ∧ resp.StatusCode = StatusOK ∧
      decodeRepository resp.Body = .error err) ∨
    (∃ req0 resp repoObj, NewRequest "GET" (requestURL owner repo) = .ok req0 ∧
      world.Do handlerClient (outbound req0) = .ok resp ∧ resp.StatusCode = StatusOK ∧
      decodeRepository resp.Body = .ok repoObj) := by
  cases hreq : NewRequest "GET" (requestURL owner repo) with
  | error err => exact Or.inl ⟨err, rfl⟩
  | ok req0 =>
    cases hdo : world.Do handlerClient (outbound req0) with
    | error err => exact Or.inr (Or.inl ⟨req0, err, rfl, hdo⟩)
    | ok resp =>
      by_cases hstatus : resp.StatusCode = StatusOK
      · cases hdec : decodeRepository resp.Body with
        | error err =>
          exact Or.inr (Or.inr (Or.inr (Or.inl ⟨req0, resp, err, rfl, hdo, hstatus, hdec⟩)))
        | ok repoObj =>
          exact Or.inr (Or.inr (Or.inr (Or.inr ⟨req0, resp, repoObj, rfl, hdo, hstatus, hdec⟩)))
      · exact Or.inr (Or.inr (Or.inl ⟨req0, resp, rfl, hdo, hstatus⟩))

/-! ### Decoding -/

theorem keyMatches_id_name (k : List Char) (h : keyMatches "id" k = true) :
    keyMatches "name" k = false := by
  unfold keyMatches at *
  have h1 := eq_of_beq h
  rw [h1]; decide

theorem keyMatches_id_owner (k : List Char) (h : keyMatches "id" k = true) :
    keyMatches "owner" k = false := by
  unfold keyMatches at *
  have h1 := eq_of_beq h
  rw [h1]; decide

theorem keyMatches_name_owner (k : List Char) (h : keyMatches "name" k = true) :
    keyMatches "owner" k = false := by
  unfold keyMatches at *
  have h1 := eq_of_beq h
  rw [h1]; decide

/-- Members under names no field is tagged with leave the struct as it is. -/
theorem decodeFields_of_omitted (fields : List (List Char × JSON)) (r : Repository)
    (h : fields.all (fun kv =>
      !keyMatches "id" kv.1 && !keyMatches "name" kv.1 && !keyMatches "owner" kv.1) = true) :
    decodeFields r fields = .ok r := by
  induction fields with
  | nil => rfl
  | cons kv rest ih =>
    obtain ⟨k, v⟩ := kv
    simp only [List.all_cons, Bool.and_eq_true, Bool.not_eq_true'] at h
    obtain ⟨⟨⟨h1, h2⟩, h3⟩, hrest⟩ := h
    have hf : decodeField r k v = .ok r := by
      simp [decodeField, h1, h2, h3]
    simp only [decodeFields, hf]
    exact ih hrest

theorem storeLogin_of_isStringOf (o : RepositoryOwner) (login : String) (v : JSON)
    (h : isStringOf login v = true) : storeLogin o v = .ok { o with Login := login } := by
  cases v with
  | string t =>
    have ht : t = login.toList := eq_of_beq h
    subst ht
    rfl
  | _ => simp [isStringOf] at h

/-- Decoding the members of an `owner` object whose `login` members all hold
the string `login`. -/
theorem decodeOwnerFields_of_all (login : String) (fields : List (List Char × JSON))
    (o : RepositoryOwner)
    (h : fields.all (fun kv => !keyMatches "login" kv.1 || isStringOf login kv.2) = true) :
    decodeOwnerFields o fields =
      .ok ⟨if fields.any (fun kv => keyMatches "login" kv.1) then login else o.Login⟩ := by
  induction fields generalizing o with
  | nil => rfl
  | cons kv rest ih =>
    obtain ⟨k, v⟩ := kv
    simp only [List.all_cons, Bool.and_eq_true] at h
    obtain ⟨hkv, hrest⟩ := h
    cases hk : keyMatches "login" k with
    | false =>
      have hf : decodeOwnerField o k v = .ok o := by simp [decodeOwnerField, hk]
      simp only [decodeOwnerFields, hf, ih o hrest, List.any_cons, hk, Bool.false_or]
    | true =>
      have hv : isStringOf login v = true := by simpa [hk] using hkv
      have hf : decodeOwnerField o k v = .ok { o with Login := login } := by
        simp [decodeOwnerField, hk, storeLogin_of_isStringOf o login v hv]
      simp only [decodeOwnerFields, hf, ih _ hrest, List.any_cons, hk, Bool.true_or]
      simp

theorem storeID_of_isNumberOf (r : Repository) (n : Int) (v : JSON)
    (h : isNumberOf n v = true) : storeID r v = .ok { r with ID := n } := by
  cases v with
  | number lit =>
    have hl : parseInt64 lit = some n := eq_of_beq h
    simp [storeID, hl]
  | _ => simp [isNumberOf] at h

theorem storeName_of_isStringOf (r : Repository) (name : String) (v : JSON)
    (h : isStringOf name v = true) : storeName r v = .ok { r with Name := name } := by
  cases v with
  | string t =>
    have ht : t = name.toList := eq_of_beq h
    subst ht
    rfl
  | _ => simp [isStringOf] at h

theorem storeOwner_of_isOwnerOf (r : Repository) (login : String) (v : JSON)
    (h : isOwnerOf login v = true) : storeOwner r v = .ok { r with Owner := ⟨login⟩ } := by
  cases v with
  | object fs =>
    simp only [isOwnerOf, Bool.and_eq_true] at h
    obtain ⟨hany, hall⟩ := h
    simp [storeOwner, decodeOwnerFields_of_all login fs r.Owner hall, hany]
  | _ => simp [isOwnerOf] at h

/-- Decoding the members of an object whose members under `id`, `name` and
`owner` all hold the same values. -/
theorem decodeFields_of_all (n : Int) (name login : String)
    (fields : List (List Char × JSON)) (r : Repository)
    (hid : fields.all (fun kv => !keyMatches "id" kv.1 || isNumberOf n kv.2) = true)
    (hname : fields.all (fun kv => !keyMatches "name" kv.1 || isStringOf name kv.2) = true)
    (howner : fields.all (fun kv => !keyMatches "owner" kv.1 || isOwnerOf login kv.2) = true) :
    decodeFields r fields =
      .ok ⟨if fields.any (fun kv => keyMatches "id" kv.1) then n else r.ID,
           if fields.any (fun kv => keyMatches "name" kv.1) then name else r.Name,
           ⟨if fields.any (fun kv => keyMatches "owner" kv.1) then login
            else r.Owner.Login⟩⟩ := by
  induction fields generalizing r with
  | nil => rfl
  | cons kv rest ih =>
    obtain ⟨k, v⟩ := kv
    simp only [List.all_cons, Bool.and_eq_true] at hid hname howner
    obtain ⟨hid1, hid2⟩ := hid
    obtain ⟨hname1, hname2⟩ := hname
    obtain ⟨howner1, howner2⟩ := howner
    cases h1 : keyMatches "id" k with
    | true =>
      have h2 := keyMatches_id_name k h1
      have h3 := keyMatches_id_owner k h1
      have hv : isNumberOf n v = true := by simpa [h1] using hid1
      have hf : decodeField r k v = .ok { r with ID := n } := by
        simp [decodeField, h1, storeID_of_isNumberOf r n v hv]
      simp only [decodeFields, hf, ih _ hid2 hname2 howner2, List.any_cons, h1, h2, h3,
        Bool.true_or, Bool.false_or]
      simp
    | false =>
      cases h2 : keyMatches "name" k with
      | true =>
        have h3 := keyMatches_name_owner k h2
        have hv : isStringOf name v = true := by simpa [h2] using hname1
        have hf : decodeField r k v = .ok { r with Name := name } := by
          simp [decodeField, h1, h2, storeName_of_isStringOf r name v hv]
        simp only [decodeFields, hf, ih _ hid2 hname2 howner2, List.any_cons, h1, h2, h3,
          Bool.true_or, Bool.false_or]
        simp
      | false =>
        cases h3 : keyMatches "owner" k with
        | true =>
          have hv : isOwnerOf login v = true := by simpa [h3] using howner1
          have hf : decodeField r k v = .ok { r with Owner := ⟨login⟩ } := by
            simp [decodeField, h1, h2, h3, storeOwner_of_isOwnerOf r login v hv]
          simp only [decodeFields, hf, ih _ hid2 hname2 howner2, List.any_cons, h1, h2, h3,
            Bool.true_or, Bool.false_or]
          simp
        | false =>
          have hf : decodeField r k v = .ok r := by simp [decodeField, h1, h2, h3]
          simp only [decodeFields, hf, ih _ hid2 hname2 howner2, List.any_cons, h1, h2, h3,
            Bool.false_or]

/-- A well-formed body decodes to the values it carries. -/
theorem decodeRepository_of_wellFormed (n : Int) (name login : String) (body : String)
    (h : wellFormedBody n name login body = true) :
    decodeRepository body = .ok ⟨n, name, ⟨login⟩⟩ := by
  unfold wellFormedBody at h
  unfold decodeRepository
  cases hv : readValue body with
  | error e => simp [hv] at h
  | ok v =>
    cases v with
    | object fs =>
      simp only [hv, carries, Bool.and_eq_true] at h
      obtain ⟨⟨⟨⟨⟨a1, a2⟩, a3⟩, b1⟩, b2⟩, b3⟩ := h
      simp [unmarshalRepository, decodeFields_of_all n name login fs _ b1 b2 b3, a1, a2, a3]
    | _ => simp [hv] at h

/-- A body that omits the three fields decodes to the zero value. -/
theorem decodeRepository_of_omitsFields (body : String) (h : omitsFields body = true) :
    decodeRepository body = .ok Repository.zero := by
  unfold omitsFields at h
  unfold decodeRepository
  cases hv : readValue body with
  | error e => simp [hv] at h
  | ok v =>
    cases v with
    | object fs =>
      simp only [hv] at h
      simp [unmarshalRepository, decodeFields_of_omitted fs _ h]
    | _ => simp [hv] at h

/-! ### The request -/

/-- What `http.NewRequest` fills in. -/
theorem NewRequest_ok (method url : String) (req0 : Request)
    (h : NewRequest method url = .ok req0) :
    req0.Method = method ∧ req0.Header = [] ∧ urlParse (utf8 url) = .ok req0.URL := by
  unfold NewRequest at h
  split at h
  · cases h
  · cases hu : urlParse (utf8 url) with
    | error e => simp [hu] at h
    | ok u =>
      simp only [hu] at h
      injection h with h
      subst h
      exact ⟨rfl, rfl, rfl⟩

/-! ### Parsing the URL -/

theorem utf8_append (a b : String) : utf8 (a ++ b) = utf8 a ++ utf8 b := by
  simp [utf8, String.toList, String.data_append]

theorem requestURL_utf8 (owner repo : String) :
    utf8 (requestURL owner repo) = basePath ++ (utf8 owner ++ '/'.toNat :: utf8 repo) := by
  have h1 : utf8 "/" = ['/'.toNat] := by decide
  have h2 : utf8 "https://api.github.com" ++ utf8 "/repos/" = basePath := by decide
  simp only [requestURL, baseURL, utf8_append, List.append_assoc, h1]
  rw [← h2]
  simp

/-- A byte of the encoding of a character that is below 0x80 is the character
itself. -/
theorem utf8EncodeChar_ascii (c : Char) (b : Nat) (hb : b ∈ utf8EncodeChar c)
    (hlt : b < 0x80) : b = c.toNat := by
  unfold utf8EncodeChar at hb
  simp only at hb
  split at hb
  · simpa using hb
  · split at hb
    · simp only [List.mem_cons, List.mem_singleton, List.not_mem_nil, or_false] at hb
      omega
    · split at hb
      · simp only [List.mem_cons, List.mem_singleton, List.not_mem_nil, or_false] at hb
        omega
      · simp only [List.mem_cons, List.mem_singleton, List.not_mem_nil, or_false] at hb
        omega

theorem utf8_ascii (s : String) (b : Nat) (hb : b ∈ utf8 s) (hlt : b < 0x80) :
    ∃ c ∈ s.toList, b = c.toNat := by
  unfold utf8 at hb
  rw [List.mem_flatMap] at hb
  obtain ⟨c, hc, hbc⟩ := hb
  exact ⟨c, hc, utf8EncodeChar_ascii c b hbc hlt⟩

theorem cut_append_of_not_mem (sep : Nat) (p t : List Nat) (h : sep ∉ p) :
    cut sep (p ++ t) = (p ++ (cut sep t).1, (cut sep t).2) := by
  induction p with
  | nil => simp
  | cons c cs ih =>
    simp only [List.mem_cons, not_or] at h
    have hc : (c == sep) = false := by
      simp; exact fun e => h.1 e.symm
    simp [cut, hc, ih h.2]

theorem cut_of_not_mem (sep : Nat) (l : List Nat) (h : sep ∉ l) : cut sep l = (l, none) := by
  induction l with
  | nil => rfl
  | cons c cs ih =>
    simp only [List.mem_cons, not_or] at h
    have hc : (c == sep) = false := by
      simp; exact fun e => h.1 e.symm
    simp [cut, hc, ih h.2]

theorem mem_cut_fst (sep c : Nat) (l : List Nat) (h : c ∈ (cut sep l).1) : c ∈ l := by
  induction l with
  | nil => simp [cut] at h
  | cons x xs ih =>
    simp only [cut] at h
    split at h
    · simp at h
    · simp only [List.mem_cons] at h ⊢
      rcases h with h | h
      · exact Or.inl h
      · exact Or.inr (ih h)

theorem mem_cut_snd (sep c : Nat) (l r : List Nat) (hr : (cut sep l).2 = some r)
    (h : c ∈ r) : c ∈ l := by
  induction l with
  | nil => simp [cut] at hr
  | cons x xs ih =>
    simp only [cut] at hr
    split at hr
    · simp only [Option.some.injEq] at hr
      subst hr
      exact List.mem_cons_of_mem _ h
    · exact List.mem_cons_of_mem _ (ih hr)

/-- Without a `%` there is nothing to unescape. -/
theorem unescape_of_no_percent (l : List Nat) (h : '%'.toNat ∉ l) : unescape l = some l := by
  induction l with
  | nil => rfl
  | cons c cs ih =>
    simp only [List.mem_cons, not_or] at h
    have hne : c ≠ 37 := fun e => h.1 (by rw [e]; rfl)
    unfold unescape
    simp [hne, ih h.2]

/-- Bytes that need no escaping are left as they are. -/
theorem escape_of_none (l : List Nat) (mode : Encoding)
    (h : ∀ c ∈ l, shouldEscape c mode = false) : escape l mode = l := by
  induction l with
  | nil => rfl
  | cons c cs ih =>
    have hc := h c (List.mem_cons_self _ _)
    have hcs := ih (fun x hx => h x (List.mem_cons_of_mem _ hx))
    unfold escape at hcs ⊢
    simp only [List.flatMap_cons, hc, Bool.false_eq_true, if_false, hcs]
    rfl

theorem getScheme_https (rest : List Nat) :
    getScheme (104 :: 116 :: 116 :: 112 :: 115 :: 58 :: rest) =
      .ok ([104, 116, 116, 112, 115], rest) := by
  rfl

theorem containsCTL_append (a b : List Nat) :
    containsCTL (a ++ b) = (containsCTL a || containsCTL b) := by
  simp [containsCTL]

theorem containsCTL_of_subset (a b : List Nat) (hsub : ∀ c ∈ a, c ∈ b)
    (h : containsCTL b = false) : containsCTL a = false := by
  unfold containsCTL at *
  rw [List.any_eq_false] at *
  intro c hc
  exact h c (hsub c hc)


theorem basePath_eq :
    basePath = 104 :: 116 :: 116 :: 112 :: 115 :: 58 :: 47 :: 47 ::
      (utf8 "api.github.com" ++ 47 :: utf8 "repos/") := by
  decide

/-- The parse of a URL under `baseURL`, before the fragment is looked at. -/
theorem parseNoFragment_base (u1 : List Nat) (hctl : containsCTL u1 = false)
    (hpct : 37 ∉ u1) :
    parseNoFragment (basePath ++ u1) =
      .ok { URL.empty with
            Scheme := utf8 "https"
            Host := utf8 "api.github.com"
            Path := utf8 "/repos/" ++ (cut 63 u1).1
            RawPath :=
              if (utf8 "/repos/" ++ (cut 63 u1).1) ==
                  escape (utf8 "/repos/" ++ (cut 63 u1).1) .path
              then [] else utf8 "/repos/" ++ (cut 63 u1).1
            ForceQuery := (cut 63 u1).2 == some []
            RawQuery := (cut 63 u1).2.getD [] } := by
  have hu : containsCTL (basePath ++ u1) = false := by
    rw [containsCTL_append, hctl]; decide
  have hstar : (basePath ++ u1 == ['*'.toNat]) = false := by
    rw [basePath_eq]; rfl
  have h2 : getScheme (basePath ++ u1) =
      .ok ([104, 116, 116, 112, 115],
        47 :: 47 :: (utf8 "api.github.com" ++ 47 :: utf8 "repos/") ++ u1) := by
    rw [basePath_eq]; exact getScheme_https _
  have h3 : cut '?'.toNat (47 :: 47 :: (utf8 "api.github.com" ++ 47 :: utf8 "repos/") ++ u1) =
      (47 :: 47 :: (utf8 "api.github.com" ++ 47 :: utf8 "repos/") ++ (cut 63 u1).1,
        (cut 63 u1).2) :=
    cut_append_of_not_mem _ _ _ (by decide)
  have h4 : 47 :: 47 :: (utf8 "api.github.com" ++ 47 :: utf8 "repos/") ++ (cut 63 u1).1 =
      47 :: 47 :: ((utf8 "api.github.com" ++ 47 :: utf8 "repos/") ++ (cut 63 u1).1) := rfl
  have h5 : cut '/'.toNat ((utf8 "api.github.com" ++ 47 :: utf8 "repos/") ++ (cut 63 u1).1) =
      (utf8 "api.github.com", some (utf8 "repos/" ++ (cut 63 u1).1)) := rfl
  have h6 : plainHost (utf8 "api.github.com") = true := by decide
  have h7 : unescape ('/'.toNat :: (utf8 "repos/" ++ (cut 63 u1).1)) =
      some ('/'.toNat :: (utf8 "repos/" ++ (cut 63 u1).1)) := by
    apply unescape_of_no_percent
    intro hmem
    rcases List.mem_cons.mp hmem with h | h
    · exact absurd h (by decide)
    · rcases List.mem_append.mp h with h | h
      · exact absurd h (by decide)
      · exact hpct (mem_cut_fst _ _ _ h)
  unfold parseNoFragment
  simp only [hu, hstar, h2, h3]
  rw [h4]
  simp only [h5, h6, URL.setPath, h7]
  rfl


/-- A URL under `baseURL` without control characters and without `%` parses. -/
theorem urlParse_plain (t : List Nat) (hctl : containsCTL t = false) (hpct : 37 ∉ t) :
    ∃ u, urlParse (basePath ++ t) = .ok u := by
  have h1 : cut '#'.toNat (basePath ++ t) = (basePath ++ (cut 35 t).1, (cut 35 t).2) :=
    cut_append_of_not_mem _ _ _ (by decide)
  have hctl1 : containsCTL (cut 35 t).1 = false :=
    containsCTL_of_subset _ _ (fun c hc => mem_cut_fst _ _ _ hc) hctl
  have hpct1 : 37 ∉ (cut 35 t).1 := fun h => hpct (mem_cut_fst _ _ _ h)
  unfold urlParse
  rw [h1]
  simp only [parseNoFragment_base _ hctl1 hpct1]
  cases hf : (cut 35 t).2 with
  | none => exact ⟨_, rfl⟩
  | some f =>
    cases f with
    | nil => exact ⟨_, rfl⟩
    | cons x xs =>
      have hun : unescape (x :: xs) = some (x :: xs) :=
        unescape_of_no_percent _ (fun h => hpct (mem_cut_snd _ _ _ _ hf h))
      simp only [URL.setFragment, hun]
      exact ⟨_, rfl⟩

theorem shouldEscape_of_ctl : ∀ c, c < 0x20 → shouldEscape c .path = true := by
  decide

/-- The URL parsed from `baseURL`, `/repos/` and bytes that need no escaping
in a path: these bytes are its path, and it renders as the text it was parsed
from. -/
theorem urlParse_unescaped (t : List Nat) (h : ∀ c ∈ t, shouldEscape c .path = false) :
    urlParse (basePath ++ t) =
      .ok { URL.empty with Scheme := utf8 "https", Host := utf8 "api.github.com",
                           Path := utf8 "/repos/" ++ t } ∧
    URL.String { URL.empty with Scheme := utf8 "https", Host := utf8 "api.github.com",
                                Path := utf8 "/repos/" ++ t } = basePath ++ t := by
  have hnot : ∀ c, shouldEscape c .path = true → c ∉ t := by
    intro c hc hmem
    rw [h c hmem] at hc
    cases hc
  have h35 : 35 ∉ t := hnot 35 (by decide)
  have h63 : 63 ∉ t := hnot 63 (by decide)
  have h37 : 37 ∉ t := hnot 37 (by decide)
  have hctl : containsCTL t = false := by
    unfold containsCTL
    rw [List.any_eq_false]
    intro c hc
    have hs := h c hc
    by_cases hlt : c < 0x20
    · rw [shouldEscape_of_ctl c hlt] at hs; cases hs
    · by_cases h7f : c = 0x7f
      · subst h7f
        exact absurd hs (by decide)
      · simp [hlt, h7f]
  have hesc : escape (utf8 "/repos/" ++ t) .path = utf8 "/repos/" ++ t := by
    apply escape_of_none
    intro c hc
    rcases List.mem_append.mp hc with hc | hc
    · have hbase : ∀ c ∈ utf8 "/repos/", shouldEscape c .path = false := by decide
      exact hbase c hc
    · exact h c hc
  have h1 : cut '#'.toNat (basePath ++ t) = (basePath ++ t, none) :=
    cut_of_not_mem _ _ (by
      intro hmem
      rcases List.mem_append.mp hmem with hm | hm
      · exact absurd hm (by decide)
      · exact h35 hm)
  have h2 : cut 63 t = (t, none) := cut_of_not_mem _ _ h63
  refine ⟨?_, ?_⟩
  · unfold urlParse
    rw [h1]
    simp only [parseNoFragment_base _ hctl h37, h2, hesc, beq_self_eq_true, if_true]
    rfl
  · have hhost : escape (utf8 "api.github.com") .host = utf8 "api.github.com" := by decide
    have hstar : (utf8 "/repos/" ++ t == ['*'.toNat]) = false := rfl
    have hs : (utf8 "https").isEmpty = false := rfl
    have hh : (utf8 "api.github.com").isEmpty = false := rfl
    have hp : (utf8 "/repos/" ++ t).isEmpty = false := rfl
    have hhead : (utf8 "/repos/" ++ t).head? = some '/'.toNat := rfl
    simp only [URL.String, URL.EscapedPath, URL.empty, hesc, hhost, hstar, hs, hh, hp, hhead,
      List.isEmpty_nil, Bool.not_true, Bool.false_and, Bool.false_eq_true, if_false,
      Bool.not_false, Bool.true_or, if_true, bne_self_eq_false, Bool.and_false, Bool.and_true,
      Bool.or_false, List.append_nil]
    have hb : (utf8 "https" ++ [':'.toNat] ++
        (['/'.toNat, '/'.toNat] ++ utf8 "api.github.com")).isEmpty = false := rfl
    simp only [hb, Bool.false_and, Bool.false_eq_true, if_false]
    rfl

theorem toNat_percent (c : Char) (h : c.toNat = 37) : c = '%' := by
  have hc : Char.ofNat c.toNat = c := Char.ofNat_toNat c
  rw [h] at hc
  exact hc.symm

/-- The bytes of a path parameter without control characters and without `%`
hold no control byte and no `%`. -/
theorem utf8_of_plainSegment (s : String) (h : plainSegment s = true) :
    ∀ b ∈ utf8 s, ¬ (b < 0x20) ∧ b ≠ 0x7f ∧ b ≠ 37 := by
  intro b hb
  unfold plainSegment at h
  rw [List.all_eq_true] at h
  by_cases hlt : b < 0x80
  · obtain ⟨c, hc, hbc⟩ := utf8_ascii s b hb hlt
    have hcs := h c hc
    simp only [Bool.and_eq_true, Bool.not_eq_true', Bool.or_eq_false_iff, decide_eq_false_iff_not,
      beq_eq_false_iff_ne, bne_iff_ne, ne_eq] at hcs
    subst hbc
    refine ⟨hcs.1.1, hcs.1.2, ?_⟩
    intro h37
    exact hcs.2 (toNat_percent c h37)
  · omega

/-! ## The claims -/

/-- Claim C1, as written, fails.  With the upstream of the spec scenario
(404 and the body `{"message":"Not Found"}`) the body of the reply is the
message followed by a newline, not the message alone; with an upstream status
of 304 the reply has status 304 and no body at all. -/
theorem non200_body_counterexample :
    (serve (getRepo (worldOf none notFound 5) "nouser" "norepo")).status = some 404 ∧
    (serve (getRepo (worldOf none notFound 5) "nouser" "norepo")).body =
      some "Error response status code\n" ∧
    (serve (getRepo (worldOf none notFound 5) "nouser" "norepo")).body ≠
      some "Error response status code" ∧
    (serve (getRepo (worldOf none notModified 5) "nouser" "norepo")).status = some 304 ∧
    (serve (getRepo (worldOf none notModified 5) "nouser" "norepo")).body = some "" := by
  decide

/-- Claim C1, amended.  When the request is built, the call returns a response
and its status code S is not 200 but one the response writer commits (101, or
200 < S ≤ 999), the reply has status S and as body the literal
`Error response status code` followed by a newline (no body when S is 101, 204
or 304).  Nothing is encoded into the reply, no diagnostic record is printed,
and the calls of the handler are the same whatever the upstream body is. -/
theorem non200_reply (world : World) (owner repo : String) (req0 : Request)
    (resp : Response) (bodies : Request → String)
    (hreq : NewRequest "GET" (requestURL owner repo) = .ok req0)
    (hdo : world.Do handlerClient (outbound req0) = .ok resp)
    (hstatus : resp.StatusCode ≠ 200)
    (hfinal : resp.StatusCode = 101 ∨ (200 ≤ resp.StatusCode ∧ resp.StatusCode ≤ 999)) :
    (serve (getRepo world owner repo)).status = some resp.StatusCode ∧
    (serve (getRepo world owner repo)).body =
      some (if resp.StatusCode = 101 ∨ resp.StatusCode = 204 ∨ resp.StatusCode = 304 then ""
            else "Error response status code\n") ∧
    encoded (getRepo world owner repo) = [] ∧
    printed (getRepo world owner repo) = [] ∧
    getRepo { world with upstream := fun r => { world.upstream r with Body := bodies r } }
      owner repo = getRepo world owner repo := by
  have hcalls := getRepo_of_status world owner repo req0 resp hreq hdo hstatus
  refine ⟨?_, ?_, ?_, ?_, ?_⟩
  · rw [hcalls, serve_do_log_error _ _ _ _ _ _ hfinal]
    rfl
  · rw [hcalls, serve_do_log_error _ _ _ _ _ _ hfinal]
    simp only [Reply.body, errorBody, bodyAllowedForStatus]
    by_cases h1 : resp.StatusCode = 101
    · simp [h1]
    · by_cases h2 : resp.StatusCode = 204
      · simp [h2]
      · by_cases h3 : resp.StatusCode = 304
        · simp [h3]
        · have h4 : ¬ (100 ≤ resp.StatusCode ∧ resp.StatusCode ≤ 199) := by omega
          simp [h1, h2, h3, h4]
  · rw [hcalls]; rfl
  · rw [hcalls]; rfl
  · have hdo2 : ({ world with upstream := fun r => { world.upstream r with Body := bodies r } } :
        World).Do handlerClient (outbound req0) = .ok { resp with Body := bodies (outbound req0) } := by
      unfold World.Do at hdo ⊢
      simp only at hdo ⊢
      cases ht : world.transport handlerClient (outbound req0) with
      | some e => rw [ht] at hdo; cases hdo
      | none =>
        rw [ht] at hdo
        simp only at hdo ⊢
        cases hdo
        rfl
    rw [hcalls, getRepo_of_status _ owner repo req0 _ hreq hdo2 hstatus]

/-- Witness of `non200_reply`: the spec scenario `GET /repos/nouser/norepo`
against an upstream that answers 404. -/
theorem non200_reply_witness :
    NewRequest "GET" (requestURL "nouser" "norepo") = .ok (plainRequest "/repos/nouser/norepo") ∧
    (worldOf none notFound 5).Do handlerClient (outbound (plainRequest "/repos/nouser/norepo")) =
      .ok notFound ∧
    (serve (getRepo (worldOf none notFound 5) "nouser" "norepo")).status =
      some notFound.StatusCode :=
  ⟨by decide, by decide,
   (non200_reply (worldOf none notFound 5) "nouser" "norepo"
     (plainRequest "/repos/nouser/norepo") notFound (fun _ => "") (by decide) (by decide)
     (by decide) (by decide)).1⟩

/-- Claim C4, as written, fails: for an upstream that answers 200 with an
empty body the reply is 500, but its body is the message followed by a
newline, not the message alone. -/
theorem decode_failure_body_counterexample :
    decodeRepository (okWith "").Body = .error .eof ∧
    (serve (getRepo (worldOf none (okWith "") 5) "octocat" "Hello-World")).status = some 500 ∧
    (serve (getRepo (worldOf none (okWith "") 5) "octocat" "Hello-World")).body =
      some "Error decoding response body\n" ∧
    (serve (getRepo (worldOf none (okWith "") 5) "octocat" "Hello-World")).body ≠
      some "Error decoding response body" := by
  decide

/-- Claim C4, amended.  When the upstream answers 200 and the body fails to
decode into a `Repository`, the reply is 500 with the headers of `http.Error`
and the body `Error decoding response body` followed by a newline; nothing is
encoded into the reply and no diagnostic record is printed.  An empty body,
a text that is not JSON and a string under `id` are such bodies. -/
theorem decode_failure_reply (world : World) (owner repo : String) (req0 : Request)
    (resp : Response) (err : DecodeError)
    (hreq : NewRequest "GET" (requestURL owner repo) = .ok req0)
    (hdo : world.Do handlerClient (outbound req0) = .ok resp)
    (hstatus : resp.StatusCode = 200)
    (hdec : decodeRepository resp.Body = .error err) :
    serve (getRepo world owner repo) =
      .response 500 errorHeader "Error decoding response body\n" ∧
    encoded (getRepo world owner repo) = [] ∧
    printed (getRepo world owner repo) = [] ∧
    decodeRepository "" = .error .eof ∧
    decodeRepository "not json" = .error .malformed ∧
    decodeRepository "\x7b\"id\": \"1296269\"\x7d" = .error .typeMismatch := by
  have hcalls := getRepo_of_decodeError world owner repo req0 resp err hreq hdo hstatus hdec
  refine ⟨?_, ?_, ?_, by decide, by decide, by decide⟩
  · rw [hcalls, serve_do_log_error _ _ _ _ _ _ finalStatus_500, errorBody_500]
    rfl
  · rw [hcalls]; rfl
  · rw [hcalls]; rfl

/-- Witness of `decode_failure_reply`: an upstream that answers 200 with a
string under `id`. -/
theorem decode_failure_reply_witness :
    NewRequest "GET" (requestURL "octocat" "Hello-World") =
      .ok (plainRequest "/repos/octocat/Hello-World") ∧
    (worldOf none (okWith "\x7b\"id\": \"1296269\"\x7d") 5).Do handlerClient
      (outbound (plainRequest "/repos/octocat/Hello-World")) =
      .ok (okWith "\x7b\"id\": \"1296269\"\x7d") ∧
    decodeRepository (okWith "\x7b\"id\": \"1296269\"\x7d").Body = .error .typeMismatch ∧
    serve (getRepo (worldOf none (okWith "\x7b\"id\": \"1296269\"\x7d") 5)
      "octocat" "Hello-World") =
      .response 500 errorHeader "Error decoding response body\n" :=
  ⟨by decide, by decide, by decide,
   (decode_failure_reply (worldOf none (okWith "\x7b\"id\": \"1296269\"\x7d") 5)
     "octocat" "Hello-World" (plainRequest "/repos/octocat/Hello-World")
     (okWith "\x7b\"id\": \"1296269\"\x7d") .typeMismatch
     (by decide) (by decide) (by decide) (by decide)).1⟩

/-- Claim C5, as written, fails: when the outbound call times out the reply is
500, but its body is the message followed by a newline, not the message
alone. -/
theorem transport_failure_body_counterexample :
    (serve (getRepo (worldOf (some .timeout) (okWith helloWorldBody) 10000000000)
      "octocat" "Hello-World")).status = some 500 ∧
    (serve (getRepo (worldOf (some .timeout) (okWith helloWorldBody) 10000000000)
      "octocat" "Hello-World")).body = some "Error sending request\n" ∧
    (serve (getRepo (worldOf (some .timeout) (okWith helloWorldBody) 10000000000)
      "octocat" "Hello-World")).body ≠ some "Error sending request" := by
  decide

/-- Claim C5, amended.  When the request is built and the outbound call, made
with the client whose timeout is ten seconds, fails in transport, the reply is
500 with the headers of `http.Error` and the body `Error sending request`
followed by a newline.  The handler makes the call, logs one line and answers:
the calls are the same whatever response the upstream would have given, so
neither its status nor its body is looked at. -/
theorem transport_failure_reply (world : World) (owner repo : String) (req0 : Request)
    (err : TransportError) (upstream2 : Request → Response)
    (hreq : NewRequest "GET" (requestURL owner repo) = .ok req0)
    (hfail : world.transport handlerClient (outbound req0) = some err) :
    serve (getRepo world owner repo) =
      .response 500 errorHeader "Error sending request\n" ∧
    getRepo world owner repo =
      [.clientDo { Timeout := 10 * 1000000000 } (outbound req0),
       .logPrintf "Error sending request: %v" [.transportError err],
       .httpError "Error sending request" 500] ∧
    getRepo { world with upstream := upstream2 } owner repo = getRepo world owner repo := by
  have hdo : world.Do handlerClient (outbound req0) = .error err := by
    simp [World.Do, hfail]
  have hdo2 : ({ world with upstream := upstream2 } : World).Do handlerClient (outbound req0) =
      .error err := by
    simp [World.Do, hfail]
  have hcalls := getRepo_of_transportError world owner repo req0 err hreq hdo
  refine ⟨?_, ?_, ?_⟩
  · rw [hcalls, serve_do_log_error _ _ _ _ _ _ finalStatus_500, errorBody_500]
    rfl
  · rw [hcalls]; rfl
  · rw [hcalls, getRepo_of_transportError _ owner repo req0 err hreq hdo2]

/-- Witness of `transport_failure_reply`: a DNS failure. -/
theorem transport_failure_reply_witness :
    NewRequest "GET" (requestURL "octocat" "Hello-World") =
      .ok (plainRequest "/repos/octocat/Hello-World") ∧
    (worldOf (some .dns) notFound 3).transport handlerClient
      (outbound (plainRequest "/repos/octocat/Hello-World")) = some .dns ∧
    serve (getRepo (worldOf (some .dns) notFound 3) "octocat" "Hello-World") =
      .response 500 errorHeader "Error sending request\n" :=
  ⟨by decide, by decide,
   (transport_failure_reply (worldOf (some .dns) notFound 3) "octocat" "Hello-World"
     (plainRequest "/repos/octocat/Hello-World") .dns (fun _ => notModified)
     (by decide) (by decide)).1⟩

/-- Claim C10.  Marshalling the map `logData` succeeds for every request,
every response (any status line and headers), every elapsed duration and every
decoded `Repository`; so no run of `getRepo` logs or answers
`Error encoding log data`. -/
theorem logData_marshal_never_fails (world : World) (owner repo : String) (req : Request)
    (resp : Response) (repoObj : Repository) :
    (∃ logJSON, MarshalIndent (logData world req resp repoObj) = .ok logJSON) ∧
    (∀ code, Event.httpError "Error encoding log data" code ∉ getRepo world owner repo) ∧
    (∀ args, Event.logPrintf "Error encoding log data: %v" args ∉ getRepo world owner repo) := by
  refine ⟨⟨_, marshalIndent_logData world req resp repoObj⟩, ?_, ?_⟩
  · intro code
    rcases getRepo_cases world owner repo with ⟨err, h⟩ | ⟨req0, err, h, hdo⟩ |
      ⟨req0, resp2, h, hdo, hst⟩ | ⟨req0, resp2, err, h, hdo, hst, hdec⟩ |
      ⟨req0, resp2, r, h, hdo, hst, hdec⟩
    · rw [getRepo_of_requestError world owner repo err h]; simp
    · rw [getRepo_of_transportError world owner repo req0 err h hdo]; simp
    · rw [getRepo_of_status world owner repo req0 resp2 h hdo hst]; simp
    · rw [getRepo_of_decodeError world owner repo req0 resp2 err h hdo hst hdec]; simp
    · rw [getRepo_of_success world owner repo req0 resp2 r h hdo hst hdec]; simp
  · intro args
    rcases getRepo_cases world owner repo with ⟨err, h⟩ | ⟨req0, err, h, hdo⟩ |
      ⟨req0, resp2, h, hdo, hst⟩ | ⟨req0, resp2, err, h, hdo, hst, hdec⟩ |
      ⟨req0, resp2, r, h, hdo, hst, hdec⟩
    · rw [getRepo_of_requestError world owner repo err h]; simp
    · rw [getRepo_of_transportError world owner repo req0 err h hdo]; simp
    · rw [getRepo_of_status world owner repo req0 resp2 h hdo hst]; simp
    · rw [getRepo_of_decodeError world owner repo req0 resp2 err h hdo hst hdec]; simp
    · rw [getRepo_of_success world owner repo req0 resp2 r h hdo hst hdec]; simp

/-- Claim C2, as written, fails on its own scenario: for `octocat/Hello-World`
and the upstream body of the spec the reply is 200 with content type
`application/json`, but the body is the JSON object followed by a newline, not
the JSON object alone. -/
theorem wellFormed_body_counterexample :
    (serve (getRepo (worldOf none (okWith helloWorldBody) 5) "octocat" "Hello-World")).status =
      some 200 ∧
    (serve (getRepo (worldOf none (okWith helloWorldBody) 5) "octocat" "Hello-World")).body =
      some "\x7b\"id\":1296269,\"name\":\"Hello-World\",\"owner\":\x7b\"login\":\"octocat\"\x7d\x7d\n" ∧
    (serve (getRepo (worldOf none (okWith helloWorldBody) 5) "octocat" "Hello-World")).body ≠
      some "\x7b\"id\":1296269,\"name\":\"Hello-World\",\"owner\":\x7b\"login\":\"octocat\"\x7d\x7d" := by
  decide

/-- Claim C2, amended.  When the upstream answers 200 with a well-formed body,
that is a JSON object with members `id` (an integer that fits 64 bits), `name`
(a string) and `owner` (an object with a string member `login`), the reply is
200 with the single header `Content-Type: application/json`, and its body is
the JSON object with exactly the members `id`, `name` and `owner.login`, holding
the values received, followed by a newline.  Other members of the upstream
object do not show in the reply. -/
theorem wellFormed_reply (world : World) (owner repo : String) (req0 : Request)
    (resp : Response) (n : Int) (name login : String)
    (hreq : NewRequest "GET" (requestURL owner repo) = .ok req0)
    (hdo : world.Do handlerClient (outbound req0) = .ok resp)
    (hstatus : resp.StatusCode = 200)
    (hbody : wellFormedBody n name login resp.Body = true) :
    serve (getRepo world owner repo) =
      .response 200 [("Content-Type", "application/json")]
        ("\x7b\"id\":" ++ formatInt n ++ ",\"name\":" ++ quoteString name ++
          ",\"owner\":\x7b\"login\":" ++ quoteString login ++ "\x7d\x7d" ++ "\n") ∧
    encoded (getRepo world owner repo) = [⟨n, name, ⟨login⟩⟩] := by
  have hdec := decodeRepository_of_wellFormed n name login resp.Body hbody
  have hcalls := getRepo_of_success world owner repo req0 resp _ hreq hdo hstatus hdec
  refine ⟨?_, ?_⟩
  · rw [hcalls, serve_success]
    rfl
  · rw [hcalls]; rfl

/-- Witness of `wellFormed_reply`: the spec scenario for `octocat/Hello-World`,
with one more member in the upstream object. -/
theorem wellFormed_reply_witness :
    NewRequest "GET" (requestURL "octocat" "Hello-World") =
      .ok (plainRequest "/repos/octocat/Hello-World") ∧
    (worldOf none (okWith
        "\x7b\"id\": 1296269, \"private\": false, \"name\": \"Hello-World\", \"owner\": \x7b\"login\": \"octocat\", \"id\": 1\x7d\x7d")
      5).Do handlerClient (outbound (plainRequest "/repos/octocat/Hello-World")) =
      .ok (okWith
        "\x7b\"id\": 1296269, \"private\": false, \"name\": \"Hello-World\", \"owner\": \x7b\"login\": \"octocat\", \"id\": 1\x7d\x7d") ∧
    serve (getRepo (worldOf none (okWith
        "\x7b\"id\": 1296269, \"private\": false, \"name\": \"Hello-World\", \"owner\": \x7b\"login\": \"octocat\", \"id\": 1\x7d\x7d")
      5) "octocat" "Hello-World") =
      .response 200 [("Content-Type", "application/json")]
        ("\x7b\"id\":" ++ formatInt 1296269 ++ ",\"name\":" ++ quoteString "Hello-World" ++
          ",\"owner\":\x7b\"login\":" ++ quoteString "octocat" ++ "\x7d\x7d" ++ "\n") :=
  ⟨by decide, by decide,
   (wellFormed_reply (worldOf none (okWith
        "\x7b\"id\": 1296269, \"private\": false, \"name\": \"Hello-World\", \"owner\": \x7b\"login\": \"octocat\", \"id\": 1\x7d\x7d")
      5) "octocat" "Hello-World" (plainRequest "/repos/octocat/Hello-World")
     (okWith
        "\x7b\"id\": 1296269, \"private\": false, \"name\": \"Hello-World\", \"owner\": \x7b\"login\": \"octocat\", \"id\": 1\x7d\x7d")
     1296269 "Hello-World" "octocat" (by decide) (by decide) (by decide) (by decide)).1⟩

/-- Claim C3, as written, fails: for an upstream that answers 200 with the
body `{}` the reply is not 500 but 200, and its body is a `Repository` of
default values. -/
theorem omitted_fields_counterexample :
    omitsFields (okWith "\x7b\x7d").Body = true ∧
    (serve (getRepo (worldOf none (okWith "\x7b\x7d") 5) "octocat" "Hello-World")).status =
      some 200 ∧
    (serve (getRepo (worldOf none (okWith "\x7b\x7d") 5) "octocat" "Hello-World")).status ≠
      some 500 ∧
    (serve (getRepo (worldOf none (okWith "\x7b\x7d") 5) "octocat" "Hello-World")).body =
      some "\x7b\"id\":0,\"name\":\"\",\"owner\":\x7b\"login\":\"\"\x7d\x7d\n" := by
  decide

/-- Claim C3, amended.  When the upstream answers 200 with a body that is a
JSON object without any member named `id`, `name` or `owner`, decoding
succeeds and the reply is 200 with content type `application/json` and the
`Repository` of default values as body: id 0, empty name, empty owner login,
followed by a newline. -/
theorem omitted_fields_reply (world : World) (owner repo : String) (req0 : Request)
    (resp : Response)
    (hreq : NewRequest "GET" (requestURL owner repo) = .ok req0)
    (hdo : world.Do handlerClient (outbound req0) = .ok resp)
    (hstatus : resp.StatusCode = 200)
    (hbody : omitsFields resp.Body = true) :
    decodeRepository resp.Body = .ok ⟨0, "", ⟨""⟩⟩ ∧
    serve (getRepo world owner repo) =
      .response 200 [("Content-Type", "application/json")]
        "\x7b\"id\":0,\"name\":\"\",\"owner\":\x7b\"login\":\"\"\x7d\x7d\n" := by
  have hdec := decodeRepository_of_omitsFields resp.Body hbody
  have hcalls := getRepo_of_success world owner repo req0 resp _ hreq hdo hstatus hdec
  refine ⟨hdec, ?_⟩
  rw [hcalls, serve_success]
  decide

/-- Witness of `omitted_fields_reply`: an upstream object with unrelated
members only. -/
theorem omitted_fields_reply_witness :
    NewRequest "GET" (requestURL "octocat" "Hello-World") =
      .ok (plainRequest "/repos/octocat/Hello-World") ∧
    (worldOf none (okWith "\x7b\"message\": \"ok\", \"ids\": [1, 2]\x7d") 5).Do handlerClient
      (outbound (plainRequest "/repos/octocat/Hello-World")) =
      .ok (okWith "\x7b\"message\": \"ok\", \"ids\": [1, 2]\x7d") ∧
    omitsFields (okWith "\x7b\"message\": \"ok\", \"ids\": [1, 2]\x7d").Body = true ∧
    serve (getRepo (worldOf none (okWith "\x7b\"message\": \"ok\", \"ids\": [1, 2]\x7d") 5)
      "octocat" "Hello-World") =
      .response 200 [("Content-Type", "application/json")]
        "\x7b\"id\":0,\"name\":\"\",\"owner\":\x7b\"login\":\"\"\x7d\x7d\n" :=
  ⟨by decide, by decide, by decide,
   (omitted_fields_reply (worldOf none (okWith "\x7b\"message\": \"ok\", \"ids\": [1, 2]\x7d") 5)
     "octocat" "Hello-World" (plainRequest "/repos/octocat/Hello-World")
     (okWith "\x7b\"message\": \"ok\", \"ids\": [1, 2]\x7d")
     (by decide) (by decide) (by decide) (by decide)).2⟩

/-- Claim C6, as written, fails.  For the path parameters `a b` and `x` (the
router delivers them for the request path `/repos/a%20b/x`) the URL of the one
request that is sent renders as `https://api.github.com/repos/a%20b/x`: the
space is escaped, so the URL is not the base URL followed by `/repos/`, owner,
`/` and repo as they came in.  For `a?b` and `x` the path of the URL ends at
`a` and the rest is its query; for `x` and `y#` the trailing `#` is gone, and
for `x` and `y#z` the path ends at `y` and `z` is the fragment. -/
theorem outbound_url_counterexample :
    (sent (getRepo (worldOf none notFound 5) "a b" "x")).map (fun r => r.URL.String) =
      [utf8 "https://api.github.com/repos/a%20b/x"] ∧
    utf8 "https://api.github.com/repos/a%20b/x" ≠
      utf8 ("https://api.github.com" ++ "/repos/" ++ "a b" ++ "/" ++ "x") ∧
    (sent (getRepo (worldOf none notFound 5) "a?b" "x")).map
        (fun r => (r.URL.Path, r.URL.RawQuery)) =
      [(utf8 "/repos/a", utf8 "b/x")] ∧
    (sent (getRepo (worldOf none notFound 5) "x" "y#")).map (fun r => r.URL.String) =
      [utf8 "https://api.github.com/repos/x/y"] ∧
    (sent (getRepo (worldOf none notFound 5) "x" "y#z")).map
        (fun r => (r.URL.Path, r.URL.Fragment)) =
      [(utf8 "/repos/x/y", utf8 "z")] := by
  decide

/-- Claim C6, amended.  For every `owner` and `repo` for which
`http.NewRequest` succeeds, `getRepo` sends exactly one request; its method is
GET, its only header is `User-Agent: my-github-api-client`, and its URL is what
`url.Parse` makes of `baseURL` followed by `/repos/`, `owner`, `/` and `repo`,
which `getRepo` joins as they are.  When `owner` and `repo` consist of bytes
that need no escaping in a path (ASCII letters and digits and `-_.~$&+,/:;=@`),
that URL has the scheme `https`, the host `api.github.com`, the path
`/repos/owner/repo`, no query and no fragment, and it renders as exactly the
joined string. -/
theorem outbound_request (world : World) (owner repo : String) (req0 : Request)
    (hreq : NewRequest "GET" (requestURL owner repo) = .ok req0) :
    sent (getRepo world owner repo) = [outbound req0] ∧
    (outbound req0).Method = "GET" ∧
    (outbound req0).Header = [("User-Agent", ["my-github-api-client"])] ∧
    urlParse (utf8 ("https://api.github.com" ++ "/repos/" ++ owner ++ "/" ++ repo)) =
      .ok (outbound req0).URL ∧
    (unescapedSegment owner = true → unescapedSegment repo = true →
      (outbound req0).URL =
        { Scheme := utf8 "https", Opaque := [], Host := utf8 "api.github.com",
          Path := utf8 ("/repos/" ++ owner ++ "/" ++ repo), RawPath := [],
          ForceQuery := false, RawQuery := [], Fragment := [], RawFragment := [] } ∧
      (outbound req0).URL.String =
        utf8 ("https://api.github.com" ++ "/repos/" ++ owner ++ "/" ++ repo)) := by
  obtain ⟨hm, hh, hu⟩ := NewRequest_ok "GET" (requestURL owner repo) req0 hreq
  refine ⟨?_, hm, ?_, hu, ?_⟩
  · rcases getRepo_cases world owner repo with ⟨err, h⟩ | ⟨r0, err, h, hdo⟩ |
      ⟨r0, resp2, h, hdo, hst⟩ | ⟨r0, resp2, err, h, hdo, hst, hdec⟩ |
      ⟨r0, resp2, r, h, hdo, hst, hdec⟩
    · rw [hreq] at h; cases h
    · rw [getRepo_of_transportError world owner repo r0 err h hdo]
      rw [hreq] at h; cases h; rfl
    · rw [getRepo_of_status world owner repo r0 resp2 h hdo hst]
      rw [hreq] at h; cases h; rfl
    · rw [getRepo_of_decodeError world owner repo r0 resp2 err h hdo hst hdec]
      rw [hreq] at h; cases h; rfl
    · rw [getRepo_of_success world owner repo r0 resp2 r h hdo hst hdec]
      rw [hreq] at h; cases h; rfl
  · simp [outbound, hh, Header.Set]
  · intro ho hr
    have hall : ∀ c ∈ utf8 owner ++ '/'.toNat :: utf8 repo, shouldEscape c .path = false := by
      unfold unescapedSegment at ho hr
      rw [List.all_eq_true] at ho hr
      intro c hc
      rcases List.mem_append.mp hc with h | h
      · simpa using ho c h
      · rcases List.mem_cons.mp h with h | h
        · subst h; decide
        · simpa using hr c h
    obtain ⟨hparse, hstring⟩ := urlParse_unescaped _ hall
    have hurl : utf8 (requestURL owner repo) = basePath ++ (utf8 owner ++ '/'.toNat :: utf8 repo) :=
      requestURL_utf8 owner repo
    have hpath : utf8 ("/repos/" ++ owner ++ "/" ++ repo) =
        utf8 "/repos/" ++ (utf8 owner ++ '/'.toNat :: utf8 repo) := by
      have h1 : utf8 "/" = ['/'.toNat] := by decide
      simp only [utf8_append, List.append_assoc, h1]
      rfl
    rw [hurl, hparse] at hu
    injection hu with hu
    have hout : (outbound req0).URL = req0.URL := rfl
    rw [hout, ← hu, hpath]
    refine ⟨rfl, ?_⟩
    rw [hstring]
    exact hurl.symm

/-- Witness of `outbound_request`: the parameters `octocat` and
`Hello-World`, and empty parameters. -/
theorem outbound_request_witness :
    NewRequest "GET" (requestURL "octocat" "Hello-World") =
      .ok (plainRequest "/repos/octocat/Hello-World") ∧
    unescapedSegment "octocat" = true ∧ unescapedSegment "Hello-World" = true ∧
    sent (getRepo (worldOf none notFound 5) "octocat" "Hello-World") =
      [outbound (plainRequest "/repos/octocat/Hello-World")] ∧
    (outbound (plainRequest "/repos/octocat/Hello-World")).URL.String =
      utf8 ("https://api.github.com" ++ "/repos/" ++ "octocat" ++ "/" ++ "Hello-World") ∧
    NewRequest "GET" (requestURL "" "") = .ok (plainRequest "/repos//") ∧
    (outbound (plainRequest "/repos//")).URL.String =
      utf8 ("https://api.github.com" ++ "/repos/" ++ "" ++ "/" ++ "") :=
  ⟨by decide, by decide, by decide,
   (outbound_request (worldOf none notFound 5) "octocat" "Hello-World"
     (plainRequest "/repos/octocat/Hello-World") (by decide)).1,
   ((outbound_request (worldOf none notFound 5) "octocat" "Hello-World"
     (plainRequest "/repos/octocat/Hello-World") (by decide)).2.2.2.2
     (by decide) (by decide)).2,
   by decide,
   ((outbound_request (worldOf none notFound 5) "" "" (plainRequest "/repos//")
     (by decide)).2.2.2.2 (by decide) (by decide)).2⟩

/-- Claim C8.  When the request is built, the call returns status 200 and the
body decodes, `getRepo` makes four calls: the outbound call, one `Println` of
the diagnostic record, the `Content-Type` header and the `Encode` of the
decoded value; the record has the seven entries `body`, `elapsedTime`,
`headers`, `headersOut`, `method`, `status` and `url`, its `body` entry is the
decoded `Repository`, the same value is the body of the reply, and the record
is printed before the reply body is written.  In every other run nothing is
printed, and no run prints more than one record. -/
theorem diagnostic_record (world : World) (owner repo : String) :
    (∀ req0 resp repoObj,
      NewRequest "GET" (requestURL owner repo) = .ok req0 →
      world.Do handlerClient (outbound req0) = .ok resp →
      resp.StatusCode = 200 →
      decodeRepository resp.Body = .ok repoObj →
        getRepo world owner repo =
          [.clientDo handlerClient (outbound req0),
           .println (diagnosticRecord world (outbound req0) resp repoObj),
           .headerSet "Content-Type" "application/json",
           .encode repoObj] ∧
        printed (getRepo world owner repo) =
          [.object [
            ("body", .object [("id", .int repoObj.ID), ("name", .string repoObj.Name),
              ("owner", .object [("login", .string repoObj.Owner.Login)])]),
            ("elapsedTime", .float world.elapsedTime 1000000000),
            ("headers", headerDoc (outbound req0).Header),
            ("headersOut", headerDoc resp.Header),
            ("method", .string (outbound req0).Method),
            ("status", .string resp.Status),
            ("url", .string (world.urlString (outbound req0).URL))]] ∧
        (diagnosticRecord world (outbound req0) resp repoObj).keys =
          ["body", "elapsedTime", "headers", "headersOut", "method", "status", "url"] ∧
        marshal repoObj.toGoValue = .ok (repositoryDoc repoObj) ∧
        serve (getRepo world owner repo) =
          .response 200 jsonHeader (marshalRepository repoObj ++ "\n")) ∧
    ((¬ ∃ req0 resp repoObj,
      NewRequest "GET" (requestURL owner repo) = .ok req0 ∧
      world.Do handlerClient (outbound req0) = .ok resp ∧
      resp.StatusCode = 200 ∧
      decodeRepository resp.Body = .ok repoObj) →
        printed (getRepo world owner repo) = []) ∧
    (printed (getRepo world owner repo)).length ≤ 1 := by
  refine ⟨?_, ?_, ?_⟩
  · intro req0 resp repoObj hreq hdo hstatus hdec
    have hcalls := getRepo_of_success world owner repo req0 resp repoObj hreq hdo hstatus hdec
    refine ⟨hcalls, ?_, rfl, marshal_repository repoObj, ?_⟩
    · rw [hcalls]; rfl
    · rw [hcalls, serve_success]; rfl
  · intro hno
    rcases getRepo_cases world owner repo with ⟨err, h⟩ | ⟨r0, err, h, hdo⟩ |
      ⟨r0, resp2, h, hdo, hst⟩ | ⟨r0, resp2, err, h, hdo, hst, hdec⟩ |
      ⟨r0, resp2, r, h, hdo, hst, hdec⟩
    · rw [getRepo_of_requestError world owner repo err h]; rfl
    · rw [getRepo_of_transportError world owner repo r0 err h hdo]; rfl
    · rw [getRepo_of_status world owner repo r0 resp2 h hdo hst]; rfl
    · rw [getRepo_of_decodeError world owner repo r0 resp2 err h hdo hst hdec]; rfl
    · exact absurd ⟨r0, resp2, r, h, hdo, hst, hdec⟩ hno
  · rcases getRepo_cases world owner repo with ⟨err, h⟩ | ⟨r0, err, h, hdo⟩ |
      ⟨r0, resp2, h, hdo, hst⟩ | ⟨r0, resp2, err, h, hdo, hst, hdec⟩ |
      ⟨r0, resp2, r, h, hdo, hst, hdec⟩
    · rw [getRepo_of_requestError world owner repo err h]; simp [printed]
    · rw [getRepo_of_transportError world owner repo r0 err h hdo]; simp [printed]
    · rw [getRepo_of_status world owner repo r0 resp2 h hdo hst]; simp [printed]
    · rw [getRepo_of_decodeError world owner repo r0 resp2 err h hdo hst hdec]; simp [printed]
    · rw [getRepo_of_success world owner repo r0 resp2 r h hdo hst hdec]; simp [printed]

/-- Witness of `diagnostic_record`: the spec scenario for
`octocat/Hello-World`. -/
theorem diagnostic_record_witness :
    NewRequest "GET" (requestURL "octocat" "Hello-World") =
      .ok (plainRequest "/repos/octocat/Hello-World") ∧
    (worldOf none (okWith helloWorldBody) 5).Do handlerClient
      (outbound (plainRequest "/repos/octocat/Hello-World")) = .ok (okWith helloWorldBody) ∧
    decodeRepository (okWith helloWorldBody).Body = .ok helloWorld ∧
    getRepo (worldOf none (okWith helloWorldBody) 5) "octocat" "Hello-World" =
      [.clientDo handlerClient (outbound (plainRequest "/repos/octocat/Hello-World")),
       .println (diagnosticRecord (worldOf none (okWith helloWorldBody) 5)
         (outbound (plainRequest "/repos/octocat/Hello-World")) (okWith helloWorldBody)
         helloWorld),
       .headerSet "Content-Type" "application/json",
       .encode helloWorld] :=
  ⟨by decide, by decide, by decide,
   ((diagnostic_record (worldOf none (okWith helloWorldBody) 5) "octocat" "Hello-World").1
     (plainRequest "/repos/octocat/Hello-World") (okWith helloWorldBody) helloWorld
     (by decide) (by decide) (by decide) (by decide)).1⟩

/-- Claim C9.  Two runs of `getRepo` for the same `owner` and `repo` whose
outbound calls have the same outcome (the same transport failures and the same
upstream responses) give the same reply, status, headers and body bytes alike,
whatever the measured durations are; and when the runs succeed with different
durations, the records they print differ. -/
theorem reply_independent_of_clock (world world2 : World) (owner repo : String)
    (htransport : world2.transport = world.transport)
    (hupstream : world2.upstream = world.upstream) :
    serve (getRepo world2 owner repo) = serve (getRepo world owner repo) ∧
    (∀ req0 resp repoObj,
      NewRequest "GET" (requestURL owner repo) = .ok req0 →
      world.Do handlerClient (outbound req0) = .ok resp →
      resp.StatusCode = 200 →
      decodeRepository resp.Body = .ok repoObj →
      world2.elapsedTime ≠ world.elapsedTime →
        printed (getRepo world2 owner repo) ≠ printed (getRepo world owner repo)) := by
  have hDo : ∀ c r, world2.Do c r = world.Do c r := by
    intro c r
    unfold World.Do
    rw [htransport, hupstream]
  refine ⟨?_, ?_⟩
  · rcases getRepo_cases world owner repo with ⟨err, h⟩ | ⟨r0, err, h, hdo⟩ |
      ⟨r0, resp2, h, hdo, hst⟩ | ⟨r0, resp2, err, h, hdo, hst, hdec⟩ |
      ⟨r0, resp2, r, h, hdo, hst, hdec⟩
    · rw [getRepo_of_requestError world owner repo err h,
        getRepo_of_requestError world2 owner repo err h]
    · rw [getRepo_of_transportError world owner repo r0 err h hdo,
        getRepo_of_transportError world2 owner repo r0 err h ((hDo _ _).trans hdo)]
    · rw [getRepo_of_status world owner repo r0 resp2 h hdo hst,
        getRepo_of_status world2 owner repo r0 resp2 h ((hDo _ _).trans hdo) hst]
    · rw [getRepo_of_decodeError world owner repo r0 resp2 err h hdo hst hdec,
        getRepo_of_decodeError world2 owner repo r0 resp2 err h ((hDo _ _).trans hdo) hst hdec]
    · rw [getRepo_of_success world owner repo r0 resp2 r h hdo hst hdec,
        getRepo_of_success world2 owner repo r0 resp2 r h ((hDo _ _).trans hdo) hst hdec,
        serve_success, serve_success]
  · intro req0 resp repoObj hreq hdo hstatus hdec hne heq
    rw [getRepo_of_success world owner repo req0 resp repoObj hreq hdo hstatus hdec,
      getRepo_of_success world2 owner repo req0 resp repoObj hreq ((hDo _ _).trans hdo)
        hstatus hdec] at heq
    simp [printed, diagnosticRecord] at heq
    exact hne heq.1

/-- Witness of `reply_independent_of_clock`: the spec scenario for
`octocat/Hello-World`, measured once at 5 ns and once at 7 s. -/
theorem reply_independent_of_clock_witness :
    (worldOf none (okWith helloWorldBody) 7000000000).transport =
      (worldOf none (okWith helloWorldBody) 5).transport ∧
    (worldOf none (okWith helloWorldBody) 7000000000).upstream =
      (worldOf none (okWith helloWorldBody) 5).upstream ∧
    serve (getRepo (worldOf none (okWith helloWorldBody) 7000000000) "octocat" "Hello-World") =
      serve (getRepo (worldOf none (okWith helloWorldBody) 5) "octocat" "Hello-World") :=
  ⟨rfl, rfl,
   (reply_independent_of_clock (worldOf none (okWith helloWorldBody) 5)
     (worldOf none (okWith helloWorldBody) 7000000000) "octocat" "Hello-World" rfl rfl).1⟩

/-- Claim C7, as written, fails.  The path parameters `%zz` and `x` are
non-empty path segments, as the router delivers them for the request path
`/repos/%25zz/x`; `http.NewRequest` rejects the URL built from them (the escape
`%zz` is malformed), and the body of the 500 reply is the message followed by
a newline, not the message alone. -/
theorem request_construction_counterexample :
    ("%zz" ≠ "" ∧ '/' ∉ "%zz".toList) ∧ ("x" ≠ "" ∧ '/' ∉ "x".toList) ∧
    NewRequest "GET" (requestURL "%zz" "x") = .error .invalidEscape ∧
    (serve (getRepo (worldOf none (okWith helloWorldBody) 5) "%zz" "x")).status = some 500 ∧
    (serve (getRepo (worldOf none (okWith helloWorldBody) 5) "%zz" "x")).body =
      some "Error creating request\n" ∧
    (serve (getRepo (worldOf none (okWith helloWorldBody) 5) "%zz" "x")).body ≠
      some "Error creating request" := by
  decide

/-- Claim C7, amended.  When `http.NewRequest` fails, the reply is 500 with
the headers of `http.Error` and the body `Error creating request` followed by
a newline, and no outbound call is made.  When `owner` and `repo` contain no
control character and no `%`, `http.NewRequest` does not fail. -/
theorem request_construction (world : World) (owner repo : String) :
    (∀ err, NewRequest "GET" (requestURL owner repo) = .error err →
      serve (getRepo world owner repo) =
        .response 500 errorHeader "Error creating request\n" ∧
      sent (getRepo world owner repo) = []) ∧
    (plainSegment owner = true → plainSegment repo = true →
      ∃ req0, NewRequest "GET" (requestURL owner repo) = .ok req0) := by
  refine ⟨?_, ?_⟩
  · intro err hreq
    have hcalls := getRepo_of_requestError world owner repo err hreq
    refine ⟨?_, ?_⟩
    · rw [hcalls, serve_log_error _ _ _ _ finalStatus_500, errorBody_500]
      rfl
    · rw [hcalls]; rfl
  · intro ho hr
    have hall : ∀ b ∈ utf8 owner ++ '/'.toNat :: utf8 repo,
        ¬ (b < 0x20) ∧ b ≠ 0x7f ∧ b ≠ 37 := by
      intro b hb
      rcases List.mem_append.mp hb with h | h
      · exact utf8_of_plainSegment owner ho b h
      · rcases List.mem_cons.mp h with h | h
        · subst h; decide
        · exact utf8_of_plainSegment repo hr b h
    have hctl : containsCTL (utf8 owner ++ '/'.toNat :: utf8 repo) = false := by
      unfold containsCTL
      rw [List.any_eq_false]
      intro b hb
      have := hall b hb
      simp [this.1, this.2.1]
    have hpct : 37 ∉ utf8 owner ++ '/'.toNat :: utf8 repo := fun hb => (hall 37 hb).2.2 rfl
    obtain ⟨u, hu⟩ := urlParse_plain _ hctl hpct
    refine ⟨{ Method := "GET", URL := u, Header := [] }, ?_⟩
    unfold NewRequest
    rw [requestURL_utf8, hu]
    rfl

/-- Witness of `request_construction`: the parameters `%zz` and `x`, for which
the request cannot be built, and `octocat` and `Hello-World`, for which it
can. -/
theorem request_construction_witness :
    NewRequest "GET" (requestURL "%zz" "x") = .error .invalidEscape ∧
    (serve (getRepo (worldOf none notFound 5) "%zz" "x") =
      .response 500 errorHeader "Error creating request\n" ∧
     sent (getRepo (worldOf none notFound 5) "%zz" "x") = []) ∧
    plainSegment "octocat" = true ∧ plainSegment "Hello-World" = true ∧
    ∃ req0, NewRequest "GET" (requestURL "octocat" "Hello-World") = .ok req0 :=
  ⟨by decide,
   (request_construction (worldOf none notFound 5) "%zz" "x").1 .invalidEscape (by decide),
   by decide, by decide,
   (request_construction (worldOf none notFound 5) "octocat" "Hello-World").2
     (by decide) (by decide)⟩

end Endpoint
